import Mathlib

/-!
Verification of the Leviton product-segmentation backend against its
natural-language specification.

The Lean definitions below are shallow embeddings of the Python sources:

* `backend/product_segmentation/utils/batching.py`
* `backend/product_segmentation/utils/cache.py`
* `backend/product_segmentation/utils/refinement.py`
* `backend/product_segmentation/llm/product_segmentation_client.py`
* `backend/core/utils/rate_limiter.py`
* `backend/product_segmentation/services/db_product_segmentation.py`
* `backend/product_segmentation/models.py`

Machine-level conventions: Python ints are modelled as `Nat`/`Int`;
fallible Python code (raising) is modelled with `Option`/`Except`;
external effects (the LLM provider, wall-clock time, random bytes) are
modelled as explicit parameters.
-/

/-! ## Batching utility (`utils/batching.py`) -/

/-- Python `round(n / b)` for positive naturals, i.e. rounding the exact
rational `n / b` to the nearest integer with ties going to the even
integer (banker's rounding).  Python computes this on the IEEE double
`n / b`; for the magnitudes handled by the batching code the double is
exact enough that the exact-rational model coincides with it. -/
def pyRound (n b : Nat) : Nat :=
  let q := n / b
  let r := n % b
  if 2 * r < b then q
  else if b < 2 * r then q + 1
  else if q % 2 = 0 then q else q + 1

/-- Embedding of `calculate_optimal_batch_sizes(total_items, target_batch_size)`.
`none` models the Python exceptions: `ValueError` when `total_items <= 0`
and `ZeroDivisionError` when `target_batch_size == 0` is divided by.
The Python builds `sizes = [base_size] * num_batches` and then adds one to
the first `remainder` entries, which is exactly
`replicate remainder (base+1) ++ replicate (num - remainder) base`. -/
def calculateOptimalBatchSizes (totalItems targetBatchSize : Nat) : Option (List Nat) :=
  if totalItems = 0 then none
  else if totalItems ≤ targetBatchSize then some [totalItems]
  else if targetBatchSize = 0 then none
  else
    let numBatches := max 1 (pyRound totalItems targetBatchSize)
    let baseSize := totalItems / numBatches
    let remainder := totalItems % numBatches
    some (List.replicate remainder (baseSize + 1) ++
          List.replicate (numBatches - remainder) baseSize)

/-- Swap the entries at positions `i` and `j` of a list (no-op when either
index is out of range).  This is the elementary step of the in-place
Fisher–Yates shuffle that `numpy.random.RandomState.shuffle` performs. -/
def listSwap {α : Type} (xs : List α) (i j : Nat) : List α :=
  match xs.get? i, xs.get? j with
  | some a, some b => (xs.set i b).set j a
  | _, _ => xs

/-- One pass of the Durstenfeld–Fisher–Yates shuffle: for `i = c, c-1, …, 1`
swap position `i` with position `draw i % (i+1)`.  `numpy`'s bounded
sampler guarantees a draw in `[0, i]`; reducing an arbitrary draw
`mod (i+1)` covers exactly those values. -/
def fisherYatesAux {α : Type} (draw : Nat → Nat) : List α → Nat → List α
  | xs, 0 => xs
  | xs, i + 1 => fisherYatesAux draw (listSwap xs (i + 1) (draw (i + 1) % (i + 2))) i

/-- Embedding of `numpy.random.RandomState(seed).shuffle` on a list: the
Fisher–Yates pass starting at index `len - 1`.  The seeded Mersenne
Twister draw stream is abstracted as the function `draw`; every theorem
below holds for every draw stream, in particular for the MT19937 one. -/
def npShuffle {α : Type} (draw : Nat → Nat) (xs : List α) : List α :=
  fisherYatesAux draw xs (xs.length - 1)

/-- Embedding of the slicing loop of `make_batches`: walk the size list,
emitting `arr[cursor : cursor+size]` slices, stopping early (`break`)
once the cursor has passed the end of the data. -/
def sliceBySizes {α : Type} : List α → List Nat → List (List α)
  | _, [] => []
  | [], _ :: _ => []
  | y :: ys, s :: rest =>
      (y :: ys).take s :: sliceBySizes ((y :: ys).drop s) rest

/-- Embedding of `make_batches(data, target_batch_size, seed)` for the
sequence (non-DataFrame) branch.  `draw seed` is the seeded random
stream used by the shuffle (see `npShuffle`).  `none` models the
exceptions propagated out of `calculate_optimal_batch_sizes`. -/
def makeBatches {α : Type} (draw : Nat → Nat → Nat) (data : List α)
    (targetBatchSize seed : Nat) : Option (List (List α)) :=
  if data.isEmpty then some []
  else
    match calculateOptimalBatchSizes data.length targetBatchSize with
    | none => none
    | some sizes => some (sliceBySizes (npShuffle (draw seed) data) sizes)

/-! ### Lemmas about the shuffle and the slicing -/

/-- Writing `a` over position `j` of a list whose position `j` holds `b`,
then consing `b`, permutes the original list consed with `a`. -/
theorem cons_set_perm {α : Type} :
    ∀ (t : List α) (j : Nat) (a b : α), t.get? j = some b →
      (b :: t.set j a).Perm (a :: t) := by
  intro t
  induction t with
  | nil => intro j a b h; simp at h
  | cons c t ih =>
    intro j a b h
    cases j with
    | zero =>
      rw [List.get?_cons_zero] at h
      injection h with h
      subst h
      exact List.Perm.swap a c t
    | succ j =>
      rw [List.get?_cons_succ] at h
      show (b :: c :: t.set j a).Perm (a :: c :: t)
      exact ((List.Perm.swap c b _).trans
        (List.Perm.cons c (ih j a b h))).trans (List.Perm.swap a c t)

/-- Overwriting position `i` with `b` and position `j` with `a`, when those
positions held `a` and `b` respectively, permutes the list. -/
theorem set_set_perm {α : Type} :
    ∀ (xs : List α) (i j : Nat) (a b : α),
      xs.get? i = some a → xs.get? j = some b →
      ((xs.set i b).set j a).Perm xs := by
  intro xs
  induction xs with
  | nil => intro i j a b hi _; simp at hi
  | cons x t ih =>
    intro i j a b hi hj
    cases i with
    | zero =>
      rw [List.get?_cons_zero] at hi
      injection hi with hi
      subst hi
      cases j with
      | zero =>
        rw [List.get?_cons_zero] at hj
        injection hj with hj
        subst hj
        exact List.Perm.refl _
      | succ j =>
        rw [List.get?_cons_succ] at hj
        exact cons_set_perm t j x b hj
    | succ i =>
      rw [List.get?_cons_succ] at hi
      cases j with
      | zero =>
        rw [List.get?_cons_zero] at hj
        injection hj with hj
        subst hj
        exact cons_set_perm t i x a hi
      | succ j =>
        rw [List.get?_cons_succ] at hj
        exact List.Perm.cons x (ih i j a b hi hj)

/-- `listSwap` permutes its input. -/
theorem listSwap_perm {α : Type} (xs : List α) (i j : Nat) :
    (listSwap xs i j).Perm xs := by
  unfold listSwap
  cases hi : xs.get? i with
  | none => exact List.Perm.refl _
  | some a =>
    cases hj : xs.get? j with
    | none => exact List.Perm.refl _
    | some b => exact set_set_perm xs i j a b hi hj

/-- The Fisher–Yates pass permutes its input, for every draw stream. -/
theorem fisherYatesAux_perm {α : Type} (draw : Nat → Nat) :
    ∀ (c : Nat) (xs : List α), (fisherYatesAux draw xs c).Perm xs := by
  intro c
  induction c with
  | zero => intro xs; exact List.Perm.refl _
  | succ i ih =>
    intro xs
    exact (ih _).trans (listSwap_perm xs (i + 1) (draw (i + 1) % (i + 2)))

/-- The embedded numpy shuffle permutes its input. -/
theorem npShuffle_perm {α : Type} (draw : Nat → Nat) (xs : List α) :
    (npShuffle draw xs).Perm xs :=
  fisherYatesAux_perm draw (xs.length - 1) xs

/-- The shuffle preserves the length. -/
theorem npShuffle_length {α : Type} (draw : Nat → Nat) (xs : List α) :
    (npShuffle draw xs).length = xs.length :=
  (npShuffle_perm draw xs).length_eq

/-- When the requested sizes cover the whole list, concatenating the
slices gives back the list. -/
theorem sliceBySizes_flatten {α : Type} :
    ∀ (sizes : List Nat) (ys : List α), ys.length ≤ sizes.sum →
      (sliceBySizes ys sizes).flatten = ys := by
  intro sizes
  induction sizes with
  | nil =>
    intro ys h
    simp at h
    simp [h, sliceBySizes]
  | cons s rest ih =>
    intro ys h
    cases ys with
    | nil => simp [sliceBySizes]
    | cons y t =>
      simp only [sliceBySizes, List.flatten_cons]
      rw [ih ((y :: t).drop s) ?_]
      · exact List.take_append_drop s (y :: t)
      · rw [List.length_drop]
        simp only [List.sum_cons, List.length_cons] at h ⊢
        omega

/-- When the sizes are positive and sum exactly to the length of the data,
the emitted batches have exactly the requested sizes. -/
theorem sliceBySizes_lengths {α : Type} :
    ∀ (sizes : List Nat) (ys : List α),
      (∀ s ∈ sizes, 0 < s) → sizes.sum = ys.length →
      (sliceBySizes ys sizes).map List.length = sizes := by
  intro sizes
  induction sizes with
  | nil => intro ys _ _; simp [sliceBySizes]
  | cons s rest ih =>
    intro ys hpos hsum
    cases ys with
    | nil =>
      exfalso
      have hs : 0 < s := hpos s (by simp)
      simp at hsum
      omega
    | cons y t =>
      simp only [sliceBySizes, List.map]
      have hle : s ≤ (y :: t).length := by
        simp only [List.sum_cons] at hsum
        omega
      have h1 : (List.take s (y :: t)).length = s := by
        rw [List.length_take]
        exact Nat.min_eq_left hle
      rw [h1, ih ((y :: t).drop s) (fun x hx => hpos x (by simp [hx])) ?_]
      rw [List.length_drop]
      simp only [List.sum_cons, List.length_cons] at hsum ⊢
      omega

/-! ### The batch-count and batch-size facts -/

/-- The number of batches the code produces: one batch when everything fits
in one target batch, otherwise `max 1 (round(N / B))`.  (The spec instead
claims `⌈N / B⌉` batches.) -/
def numBatches (totalItems targetBatchSize : Nat) : Nat :=
  if totalItems ≤ targetBatchSize then 1
  else max 1 (pyRound totalItems targetBatchSize)

/-- Rounding `n / b` cannot exceed `n` when `b ≥ 1` and `n ≥ 1`. -/
theorem pyRound_le (n b : Nat) (hb : 0 < b) : pyRound n b ≤ n := by
  unfold pyRound
  have hmod := Nat.div_add_mod n b
  have hq : n / b ≤ n := Nat.div_le_self n b
  by_cases h1 : 2 * (n % b) < b
  · simpa [h1] using hq
  · have hr : 0 < n % b := by omega
    have hqb : n / b * b ≥ n / b := Nat.le_mul_of_pos_right _ hb
    have : n / b + 1 ≤ n := by
      have := Nat.div_add_mod n b
      nlinarith [Nat.div_add_mod n b]
    by_cases h2 : b < 2 * (n % b)
    · simp [h1, h2]; omega
    · by_cases h3 : n / b % 2 = 0
      · simp [h1, h2, h3]; omega
      · simp [h1, h2, h3]; omega

/-- The batch count is positive. -/
theorem numBatches_pos (n b : Nat) : 0 < numBatches n b := by
  unfold numBatches
  by_cases h : n ≤ b <;> simp [h]

/-- The batch count never exceeds the number of items. -/
theorem numBatches_le (n b : Nat) (hn : 0 < n) (hb : 0 < b) :
    numBatches n b ≤ n := by
  unfold numBatches
  by_cases h : n ≤ b
  · simp [h]; omega
  · simp [h]
    exact ⟨hn, pyRound_le n b hb⟩

/-- Closed form of `calculate_optimal_batch_sizes` on positive inputs:
`N % k` batches of size `⌊N/k⌋ + 1` followed by `k - N % k` batches of
size `⌊N/k⌋`, where `k = numBatches N B`. -/
theorem calcSizes_eq (n b : Nat) (hn : 0 < n) (hb : 0 < b) :
    calculateOptimalBatchSizes n b =
      some (List.replicate (n % numBatches n b) (n / numBatches n b + 1) ++
            List.replicate (numBatches n b - n % numBatches n b)
              (n / numBatches n b)) := by
  unfold calculateOptimalBatchSizes numBatches
  by_cases h0 : n = 0
  · omega
  · by_cases h : n ≤ b
    · simp [h0, h, Nat.mod_one, List.replicate_one]
    · have hb0 : b ≠ 0 := by omega
      simp [h0, h, hb0]

/-- Shorthand for the size list the code produces for `k` batches. -/
def sizesShape (k n : Nat) : List Nat :=
  List.replicate (n % k) (n / k + 1) ++ List.replicate (k - n % k) (n / k)

/-- The produced sizes sum to the total. -/
theorem sizesShape_sum (k n : Nat) (hk : 0 < k) : (sizesShape k n).sum = n := by
  unfold sizesShape
  rw [List.sum_append, List.sum_replicate, List.sum_replicate, smul_eq_mul, smul_eq_mul]
  have hrem : n % k ≤ k := le_of_lt (Nat.mod_lt n hk)
  have hmod : k * (n / k) + n % k = n := Nat.div_add_mod n k
  have h1 : n % k * (n / k + 1) = n % k * (n / k) + n % k := by ring
  have h2 : (k - n % k) * (n / k) = k * (n / k) - n % k * (n / k) :=
    Nat.sub_mul k (n % k) (n / k)
  have h3 : n % k * (n / k) ≤ k * (n / k) := Nat.mul_le_mul_right _ hrem
  omega

/-- There are exactly `k` sizes. -/
theorem sizesShape_length (k n : Nat) (hk : 0 < k) :
    (sizesShape k n).length = k := by
  unfold sizesShape
  have hrem : n % k < k := Nat.mod_lt n hk
  simp
  omega

/-- Every produced size is positive when `k ≤ n`. -/
theorem sizesShape_pos (k n : Nat) (hk : 0 < k) (hkn : k ≤ n) :
    ∀ s ∈ sizesShape k n, 0 < s := by
  intro s hs
  unfold sizesShape at hs
  have hdiv : 0 < n / k := Nat.div_pos hkn hk
  rcases List.mem_append.mp hs with h | h
  · have := List.eq_of_mem_replicate h
    omega
  · have := List.eq_of_mem_replicate h
    omega

/-- Ceiling division in terms of floor and remainder. -/
theorem ceilDiv_eq (n k : Nat) (hk : 0 < k) :
    (n + k - 1) / k = n / k + (if n % k = 0 then 0 else 1) := by
  have hmod : k * (n / k) + n % k = n := Nat.div_add_mod n k
  have hrem : n % k < k := Nat.mod_lt n hk
  by_cases h : n % k = 0
  · have hn : n + k - 1 = k * (n / k) + (k - 1) := by omega
    have hd : (k - 1) / k = 0 := Nat.div_eq_of_lt (by omega)
    rw [hn, Nat.mul_add_div hk, hd]
    simp [h]
  · have hke : k * (n / k + 1) = k * (n / k) + k := by ring
    have hn : n + k - 1 = k * (n / k + 1) + (n % k - 1) := by omega
    have hd : (n % k - 1) / k = 0 := Nat.div_eq_of_lt (by omega)
    rw [hn, Nat.mul_add_div hk, hd]
    simp [h]

/-- Every produced size is the floor or the ceiling of `n / k`. -/
theorem sizesShape_mem (k n : Nat) (hk : 0 < k) :
    ∀ s ∈ sizesShape k n, s = n / k ∨ s = (n + k - 1) / k := by
  intro s hs
  have hceil := ceilDiv_eq n k hk
  unfold sizesShape at hs
  rcases List.mem_append.mp hs with h | h
  · have heq := List.eq_of_mem_replicate h
    have hne : n % k ≠ 0 := by
      intro h0
      rw [h0] at h
      simp at h
    right
    rw [hceil]
    simp [hne, heq]
  · left
    exact List.eq_of_mem_replicate h

/-- Replicated lists are pairwise related by any reflexive-at-the-element
relation. -/
theorem pairwise_replicate_of {α : Type} (R : α → α → Prop) (x : α) (hx : R x x) :
    ∀ m : Nat, List.Pairwise R (List.replicate m x) := by
  intro m
  induction m with
  | zero => simp
  | succ m ih =>
    rw [List.replicate_succ]
    exact List.Pairwise.cons (fun y hy => (List.eq_of_mem_replicate hy) ▸ hx) ih

/-- The sizes are emitted largest-first: the remainder goes to the
earliest batches. -/
theorem sizesShape_sorted (k n : Nat) :
    List.Pairwise (fun a b => b ≤ a) (sizesShape k n) := by
  unfold sizesShape
  rw [List.pairwise_append]
  refine ⟨pairwise_replicate_of (fun a b => b ≤ a) _ (le_refl _) _,
          pairwise_replicate_of (fun a b => b ≤ a) _ (le_refl _) _, ?_⟩
  intro a ha b hb
  rw [List.eq_of_mem_replicate ha, List.eq_of_mem_replicate hb]
  omega

/-- On non-empty data and a positive target size, `make_batches` slices the
shuffled data by the computed size list. -/
theorem makeBatches_eq {α : Type} (draw : Nat → Nat → Nat) (xs : List α)
    (B seed : Nat) (hx : xs ≠ []) (hB : 0 < B) :
    makeBatches draw xs B seed =
      some (sliceBySizes (npShuffle (draw seed) xs)
        (sizesShape (numBatches xs.length B) xs.length)) := by
  unfold makeBatches
  have hN : 0 < xs.length := List.length_pos.mpr hx
  rw [if_neg (by simp [hx]), calcSizes_eq xs.length B hN hB]
  rfl

/-- The lengths of the emitted batches are exactly the computed sizes. -/
theorem makeBatches_lengths {α : Type} (draw : Nat → Nat → Nat) (xs : List α)
    (B seed : Nat) (hx : xs ≠ []) (hB : 0 < B) :
    (sliceBySizes (npShuffle (draw seed) xs)
        (sizesShape (numBatches xs.length B) xs.length)).map List.length =
      sizesShape (numBatches xs.length B) xs.length := by
  have hN : 0 < xs.length := List.length_pos.mpr hx
  have hk : 0 < numBatches xs.length B := numBatches_pos _ _
  have hkn : numBatches xs.length B ≤ xs.length := numBatches_le _ _ hN hB
  exact sliceBySizes_lengths _ _ (sizesShape_pos _ _ hk hkn)
    (by rw [sizesShape_sum _ _ hk, npShuffle_length])

/-- Claim C1 fails on the code: for `N = 7` items and target batch size
`B = 3`, `calculate_optimal_batch_sizes` returns `[4, 3]` — two batches
(because the code uses `round(7/3) = 2`, not `⌈7/3⌉ = 3`) — and the batch
of size `4` is outside `{⌊7/3⌋, ⌈7/3⌉} = {2, 3}`.  `make_batches` hence
emits 2 batches, whatever the shuffle draws. -/
theorem make_batches_ceil_claim_counterexample :
    calculateOptimalBatchSizes 7 3 = some [4, 3] ∧
    (makeBatches (fun _ _ => 0) ([0, 1, 2, 3, 4, 5, 6] : List Nat) 3 42).map
      List.length = some 2 ∧
    (7 + 3 - 1) / 3 = 3 ∧
    ¬ (4 = 7 / 3 ∨ 4 = (7 + 3 - 1) / 3) := by decide

/-- Amended claim C1: for non-empty input of length `N` and target size
`B > 0`, `make_batches` produces exactly `numBatches N B` batches (one
batch when `N ≤ B`, else `max 1 (round(N/B))` with banker's rounding —
not `⌈N/B⌉`); any two batch sizes differ by at most 1; the remainder
goes to the earliest batches (sizes are non-increasing); and every batch
size is `⌊N/k⌋` or `⌈N/k⌉` where `k` is that batch count. -/
theorem make_batches_count_and_sizes {α : Type} (draw : Nat → Nat → Nat)
    (xs : List α) (B seed : Nat) (hx : xs ≠ []) (hB : 0 < B) :
    ∃ bs, makeBatches draw xs B seed = some bs ∧
      bs.length = numBatches xs.length B ∧
      (∀ b1 ∈ bs, ∀ b2 ∈ bs, b1.length ≤ b2.length + 1) ∧
      List.Pairwise (fun b1 b2 => b2.length ≤ b1.length) bs ∧
      (∀ b ∈ bs, b.length = xs.length / numBatches xs.length B ∨
        b.length = (xs.length + numBatches xs.length B - 1) /
          numBatches xs.length B) := by
  have hN : 0 < xs.length := List.length_pos.mpr hx
  have hk : 0 < numBatches xs.length B := numBatches_pos _ _
  have hmap := makeBatches_lengths draw xs B seed hx hB
  refine ⟨_, makeBatches_eq draw xs B seed hx hB, ?_, ?_, ?_, ?_⟩
  · have := congrArg List.length hmap
    rw [List.length_map] at this
    rw [this, sizesShape_length _ _ hk]
  · intro b1 h1 b2 h2
    have m1 : b1.length ∈ sizesShape (numBatches xs.length B) xs.length := by
      rw [← hmap]; exact List.mem_map_of_mem List.length h1
    have m2 : b2.length ∈ sizesShape (numBatches xs.length B) xs.length := by
      rw [← hmap]; exact List.mem_map_of_mem List.length h2
    have c1 := sizesShape_mem _ _ hk _ m1
    have c2 := sizesShape_mem _ _ hk _ m2
    have hceil := ceilDiv_eq xs.length (numBatches xs.length B) hk
    by_cases h : xs.length % numBatches xs.length B = 0 <;>
      simp [h] at hceil <;> omega
  · have hpair := sizesShape_sorted (numBatches xs.length B) xs.length
    rw [← hmap, List.pairwise_map] at hpair
    exact hpair
  · intro b hb
    have : b.length ∈ sizesShape (numBatches xs.length B) xs.length := by
      rw [← hmap]; exact List.mem_map_of_mem List.length hb
    exact sizesShape_mem _ _ hk _ this

/-- Witness for the amended claim C1 at a concrete input. -/
theorem make_batches_count_and_sizes_witness :
    ∃ bs, makeBatches (fun _ _ => 0) ([10, 20, 30, 40, 50] : List Nat) 2 42 =
        some bs ∧
      bs.length = numBatches 5 2 ∧
      (∀ b1 ∈ bs, ∀ b2 ∈ bs, b1.length ≤ b2.length + 1) ∧
      List.Pairwise (fun b1 b2 => b2.length ≤ b1.length) bs ∧
      (∀ b ∈ bs, b.length = 5 / numBatches 5 2 ∨
        b.length = (5 + numBatches 5 2 - 1) / numBatches 5 2) :=
  make_batches_count_and_sizes (fun _ _ => 0) [10, 20, 30, 40, 50] 2 42
    (by decide) (by decide)

/-- Claim C2: `make_batches` is deterministic in its arguments (pure
function of data, target size, seed and draw stream), and the
concatenation of the batches, in order, is a permutation of the input. -/
theorem make_batches_deterministic_and_permutation {α : Type}
    (draw : Nat → Nat → Nat) (xs : List α) (B seed : Nat) (hB : 0 < B) :
    makeBatches draw xs B seed = makeBatches draw xs B seed ∧
      ∃ bs, makeBatches draw xs B seed = some bs ∧ bs.flatten.Perm xs := by
  refine ⟨rfl, ?_⟩
  by_cases hx : xs = []
  · subst hx
    exact ⟨[], rfl, List.Perm.refl _⟩
  · have hN : 0 < xs.length := List.length_pos.mpr hx
    have hk : 0 < numBatches xs.length B := numBatches_pos _ _
    refine ⟨_, makeBatches_eq draw xs B seed hx hB, ?_⟩
    rw [sliceBySizes_flatten]
    · exact npShuffle_perm (draw seed) xs
    · rw [sizesShape_sum _ _ hk, npShuffle_length]

/-- Witness for claim C2 at a concrete input. -/
theorem make_batches_deterministic_and_permutation_witness :
    makeBatches (fun _ _ => 1) ([7, 8, 9] : List Nat) 2 42 =
        makeBatches (fun _ _ => 1) ([7, 8, 9] : List Nat) 2 42 ∧
      ∃ bs, makeBatches (fun _ _ => 1) ([7, 8, 9] : List Nat) 2 42 = some bs ∧
        bs.flatten.Perm [7, 8, 9] :=
  make_batches_deterministic_and_permutation (fun _ _ => 1) [7, 8, 9] 2 42
    (by decide)

/-! ## Interaction-store cache keys (`utils/cache.py`)

`CacheManager.generate_key(content, context)` hashes
`content` (or `content ||| json.dumps(context, sort_keys=True)`) with
SHA-256 and truncates the hex digest.  We embed SHA-256 itself
(FIPS 180-4) over byte lists, with 32-bit words as naturals reduced
`mod 2^32`. -/

/-- Reduce to a 32-bit word. -/
def w32 (x : Nat) : Nat := x % 4294967296

/-- Right rotation of a 32-bit word. -/
def rotr32 (x n : Nat) : Nat := w32 ((x >>> n) ||| (x <<< (32 - n)))

/-- SHA-256 choice function. -/
def shaCh (x y z : Nat) : Nat := (x &&& y) ^^^ ((x ^^^ 4294967295) &&& z)

/-- SHA-256 majority function. -/
def shaMaj (x y z : Nat) : Nat := (x &&& y) ^^^ (x &&& z) ^^^ (y &&& z)

/-- SHA-256 big sigma 0. -/
def bigSigma0 (x : Nat) : Nat := rotr32 x 2 ^^^ rotr32 x 13 ^^^ rotr32 x 22

/-- SHA-256 big sigma 1. -/
def bigSigma1 (x : Nat) : Nat := rotr32 x 6 ^^^ rotr32 x 11 ^^^ rotr32 x 25

/-- SHA-256 small sigma 0. -/
def smallSigma0 (x : Nat) : Nat := rotr32 x 7 ^^^ rotr32 x 18 ^^^ (x >>> 3)

/-- SHA-256 small sigma 1. -/
def smallSigma1 (x : Nat) : Nat := rotr32 x 17 ^^^ rotr32 x 19 ^^^ (x >>> 10)

/-- The 64 SHA-256 round constants. -/
def sha256K : List Nat :=
  [1116352408, 1899447441, 3049323471, 3921009573, 961987163, 1508970993,
   2453635748, 2870763221, 3624381080, 310598401, 607225278, 1426881987,
   1925078388, 2162078206, 2614888103, 3248222580, 3835390401, 4022224774,
   264347078, 604807628, 770255983, 1249150122, 1555081692, 1996064986,
   2554220882, 2821834349, 2952996808, 3210313671, 3336571891, 3584528711,
   113926993, 338241895, 666307205, 773529912, 1294757372, 1396182291,
   1695183700, 1986661051, 2177026350, 2456956037, 2730485921, 2820302411,
   3259730800, 3345764771, 3516065817, 3600352804, 4094571909, 275423344,
   430227734, 506948616, 659060556, 883997877, 958139571, 1322822218,
   1537002063, 1747873779, 1955562222, 2024104815, 2227730452, 2361852424,
   2428436474, 2756734187, 3204031479, 3329325298]

/-- The SHA-256 working state: eight 32-bit words. -/
structure Sha256State where
  a : Nat
  b : Nat
  c : Nat
  d : Nat
  e : Nat
  f : Nat
  g : Nat
  h : Nat

/-- The SHA-256 initial hash value. -/
def sha256Init : Sha256State :=
  ⟨1779033703, 3144134277, 1013904242, 2773480762,
   1359893119, 2600822924, 528734635, 1541459225⟩

/-- One SHA-256 compression round. -/
def sha256Round (st : Sha256State) (k w : Nat) : Sha256State :=
  let t1 := st.h + bigSigma1 st.e + shaCh st.e st.f st.g + k + w
  let t2 := bigSigma0 st.a + shaMaj st.a st.b st.c
  ⟨w32 (t1 + t2), st.a, st.b, st.c, w32 (st.d + t1), st.e, st.f, st.g⟩

/-- Group a byte list into big-endian 32-bit words. -/
def bytesToWords : List Nat → List Nat
  | b0 :: b1 :: b2 :: b3 :: rest =>
      (((b0 * 256 + b1) * 256 + b2) * 256 + b3) :: bytesToWords rest
  | _ => []

/-- Extend the 16-word message schedule by `n` further words. -/
def extendSchedule (ws : List Nat) : Nat → List Nat
  | 0 => ws
  | n + 1 =>
    let prev := extendSchedule ws n
    let len := prev.length
    prev ++ [w32 (smallSigma1 (prev.getD (len - 2) 0) + prev.getD (len - 7) 0 +
                  smallSigma0 (prev.getD (len - 15) 0) + prev.getD (len - 16) 0)]

/-- Compress one 64-byte block into the running state. -/
def sha256Block (st : Sha256State) (block : List Nat) : Sha256State :=
  let ws := extendSchedule (bytesToWords block) 48
  let fin := (sha256K.zip ws).foldl (fun s kw => sha256Round s kw.1 kw.2) st
  ⟨w32 (st.a + fin.a), w32 (st.b + fin.b), w32 (st.c + fin.c), w32 (st.d + fin.d),
   w32 (st.e + fin.e), w32 (st.f + fin.f), w32 (st.g + fin.g), w32 (st.h + fin.h)⟩

/-- Big-endian bytes of a 32-bit word. -/
def wordBytes (w : Nat) : List Nat :=
  [w / 16777216 % 256, w / 65536 % 256, w / 256 % 256, w % 256]

/-- Big-endian bytes of a 64-bit length field. -/
def len64Bytes (n : Nat) : List Nat :=
  [n / 72057594037927936 % 256, n / 281474976710656 % 256,
   n / 1099511627776 % 256, n / 4294967296 % 256,
   n / 16777216 % 256, n / 65536 % 256, n / 256 % 256, n % 256]

/-- SHA-256 padding: append `0x80`, zeros to 56 mod 64, then the bit
length as a 64-bit big-endian integer. -/
def sha256Pad (msg : List Nat) : List Nat :=
  let l := msg.length
  msg ++ 128 :: List.replicate ((119 - l % 64) % 64) 0 ++ len64Bytes (l * 8)

/-- Split a list into chunks of `n` elements (fuel-based, fuel is the
list length so every element is covered when `n > 0`). -/
def chunksAux {α : Type} (n : Nat) : List α → Nat → List (List α)
  | [], _ => []
  | _ :: _, 0 => []
  | x :: xs, fuel + 1 => (x :: xs).take n :: chunksAux n ((x :: xs).drop n) fuel

/-- Split a list into chunks of `n` elements. -/
def chunks {α : Type} (n : Nat) (xs : List α) : List (List α) :=
  chunksAux n xs xs.length

/-- SHA-256 of a byte list, returned as its 32 digest bytes. -/
def sha256 (msg : List Nat) : List Nat :=
  let st := (chunks 64 (sha256Pad msg)).foldl sha256Block sha256Init
  wordBytes st.a ++ wordBytes st.b ++ wordBytes st.c ++ wordBytes st.d ++
  wordBytes st.e ++ wordBytes st.f ++ wordBytes st.g ++ wordBytes st.h

/-- Lower-case hex digit for a value below 16. -/
def hexDigitChar (n : Nat) : Char :=
  if n < 10 then Char.ofNat (48 + n) else Char.ofNat (87 + n)

/-- UTF-8 bytes of a string, as naturals. -/
def utf8Bytes (s : String) : List Nat :=
  s.toUTF8.toList.map UInt8.toNat

/-- The `hexdigest()` of SHA-256 over the UTF-8 encoding of a string. -/
def sha256Hexdigest (s : String) : String :=
  String.mk ((sha256 (utf8Bytes s)).flatMap
    (fun b => [hexDigitChar (b / 16), hexDigitChar (b % 16)]))

/-- Four-hex-digit unicode escape used by `json.dumps` with
`ensure_ascii=True` (the default). -/
def u16Escape (n : Nat) : String :=
  "\\u" ++ String.mk [hexDigitChar (n / 4096 % 16), hexDigitChar (n / 256 % 16),
                      hexDigitChar (n / 16 % 16), hexDigitChar (n % 16)]

/-- Escape one character the way `json.dumps` (default `ensure_ascii=True`)
renders string contents: short escapes for the JSON control set, plain
ASCII passed through, everything else as `\uXXXX` (with surrogate pairs
above the BMP). -/
def pyJsonEscapeChar (c : Char) : String :=
  if c = '"' then "\\\""
  else if c = '\\' then "\\\\"
  else if c = '\n' then "\\n"
  else if c = '\t' then "\\t"
  else if c = '\r' then "\\r"
  else if c.toNat = 8 then "\\b"
  else if c.toNat = 12 then "\\f"
  else if c.toNat < 32 ∨ 127 ≤ c.toNat then
    if c.toNat < 65536 then u16Escape c.toNat
    else u16Escape (55296 + (c.toNat - 65536) / 1024) ++
         u16Escape (56320 + (c.toNat - 65536) % 1024)
  else String.singleton c

/-- Render a Python string literal the way `json.dumps` does. -/
def pyJsonQuote (s : String) : String :=
  "\"" ++ String.join (s.toList.map pyJsonEscapeChar) ++ "\""

/-- JSON-serialisable Python values as they appear in the cache contexts
(`model`, `temperature`, `taxonomy_checksum`, …).  Floats are omitted:
their `repr`-based rendering is orthogonal to the claims about the key
derivation, which hold for every rendered payload. -/
inductive PyJson where
  | null : PyJson
  | bool : Bool → PyJson
  | int : Int → PyJson
  | str : String → PyJson
  | arr : List PyJson → PyJson
  | obj : List (String × PyJson) → PyJson

/-- Stable insertion of a rendered key/value pair into a key-sorted list
(Python `sort_keys=True` sorts object keys by code-point order). -/
def insertByKey (p : String × String) : List (String × String) → List (String × String)
  | [] => [p]
  | q :: qs => if p.1 < q.1 then p :: q :: qs else q :: insertByKey p qs

/-- Insertion sort of rendered key/value pairs by key. -/
def sortByKey : List (String × String) → List (String × String)
  | [] => []
  | p :: ps => insertByKey p (sortByKey ps)

mutual

/-- Embedding of `json.dumps(value, sort_keys=True)` with the default
separators `", "` and `": "` and default `ensure_ascii=True`. -/
def pyJsonDumps : PyJson → String
  | .null => "null"
  | .bool true => "true"
  | .bool false => "false"
  | .int i => toString i
  | .str s => pyJsonQuote s
  | .arr xs => "[" ++ String.intercalate ", " (pyJsonDumpsList xs) ++ "]"
  | .obj kvs =>
      "\x7b" ++ String.intercalate ", "
        ((sortByKey (pyJsonDumpsPairs kvs)).map
          (fun kv => pyJsonQuote kv.1 ++ ": " ++ kv.2)) ++ "\x7d"

/-- Serialise every element of a JSON array. -/
def pyJsonDumpsList : List PyJson → List String
  | [] => []
  | x :: xs => pyJsonDumps x :: pyJsonDumpsList xs

/-- Serialise every value of a JSON object, keeping the keys. -/
def pyJsonDumpsPairs : List (String × PyJson) → List (String × String)
  | [] => []
  | (k, v) :: xs => (k, pyJsonDumps v) :: pyJsonDumpsPairs xs

end

/-- Python `s[:n]`: the first `n` characters of a string. -/
def pyStrTake (s : String) (n : Nat) : String := String.mk (s.toList.take n)

/-- The payload hashed by `CacheManager.generate_key`: `content` alone, or
`f"{content}|||{json.dumps(context, sort_keys=True)}"` when a context
dict is given. -/
def cacheKeyPayload (content : String) (context : Option PyJson) : String :=
  match context with
  | none => content
  | some ctx => content ++ "|||" ++ pyJsonDumps ctx

/-- Embedding of `CacheManager.generate_key(content, context)`: the hex
SHA-256 digest of the payload truncated to its first 16 characters
(`hexdigest()[:16]`). -/
def generate_key (content : String) (context : Option PyJson) : String :=
  pyStrTake (sha256Hexdigest (cacheKeyPayload content context)) 16

/-- The digest of SHA-256 is always 32 bytes. -/
theorem sha256_length (msg : List Nat) : (sha256 msg).length = 32 := by
  unfold sha256
  simp [wordBytes]

/-- Every digest byte is below 256. -/
theorem wordBytes_lt (w : Nat) : ∀ x ∈ wordBytes w, x < 256 := by
  intro x hx
  simp only [wordBytes, List.mem_cons, List.not_mem_nil, or_false] at hx
  rcases hx with h | h | h | h <;> subst h <;> exact Nat.mod_lt _ (by omega)

/-- Every byte of a SHA-256 digest is below 256. -/
theorem sha256_bytes_lt (msg : List Nat) : ∀ b ∈ sha256 msg, b < 256 := by
  intro b hb
  unfold sha256 at hb
  simp only [List.mem_append] at hb
  rcases hb with ((((((h | h) | h) | h) | h) | h) | h) | h <;>
    exact wordBytes_lt _ _ h

/-- Mapping each element to a two-character chunk doubles the length. -/
theorem flatMap_pair_length {α : Type} (f g : α → Char) (l : List α) :
    (l.flatMap (fun b => [f b, g b])).length = 2 * l.length := by
  induction l with
  | nil => simp
  | cons x xs ih => simp [ih]; ring

/-- The hex digest string has 64 characters. -/
theorem sha256Hexdigest_length (s : String) : (sha256Hexdigest s).length = 64 := by
  unfold sha256Hexdigest
  simp only [String.length_mk]
  rw [flatMap_pair_length, sha256_length]

/-- Hex digits below 16 render into the hex alphabet. -/
theorem hexDigitChar_mem (n : Nat) (h : n < 16) :
    hexDigitChar n ∈ "0123456789abcdef".toList := by
  interval_cases n <;> decide

/-- Every character of the hex digest is a lower-case hex digit. -/
theorem sha256Hexdigest_chars (s : String) :
    ∀ c ∈ (sha256Hexdigest s).toList, c ∈ "0123456789abcdef".toList := by
  intro c hc
  unfold sha256Hexdigest at hc
  simp only [String.toList, List.mem_flatMap] at hc
  obtain ⟨b, hb, hcb⟩ := hc
  have hlt : b < 256 := sha256_bytes_lt (utf8Bytes s) b hb
  simp only [List.mem_cons, List.not_mem_nil, or_false] at hcb
  rcases hcb with h | h <;> subst h
  · exact hexDigitChar_mem _ (by omega)
  · exact hexDigitChar_mem _ (Nat.mod_lt _ (by omega))

/-- The truncated key always has exactly 16 characters. -/
theorem generate_key_length (content : String) (context : Option PyJson) :
    (generate_key content context).length = 16 := by
  unfold generate_key pyStrTake
  simp [sha256Hexdigest_length]

/-- Claim C3 fails on the code: the cache key is 16 characters long, not
32 — `generate_key` truncates the SHA-256 hex digest with `[:16]`
(as its own docstring says), while the spec claims the first 32 hex
characters. -/
theorem generate_key_32_char_counterexample :
    (generate_key "abc" none).length = 16 ∧
    ¬ (generate_key "abc" none).length = 32 := by
  refine ⟨generate_key_length "abc" none, ?_⟩
  rw [generate_key_length "abc" none]
  omega

/-- Amended claim C3: for every rendered prompt and context, the cache key
equals the first 16 (not 32) hex characters of SHA-256 over the rendered
prompt concatenated (with the `|||` separator) with the
deterministically (sorted-keys) JSON-serialized context; the full digest
has 64 hex characters and the key is a 16-character hex string. -/
theorem generate_key_spec (content : String) (context : Option PyJson) :
    generate_key content context =
      pyStrTake (sha256Hexdigest (cacheKeyPayload content context)) 16 ∧
    (sha256Hexdigest (cacheKeyPayload content context)).length = 64 ∧
    (generate_key content context).length = 16 ∧
    ∀ c ∈ (generate_key content context).toList,
      c ∈ "0123456789abcdef".toList := by
  refine ⟨rfl, sha256Hexdigest_length _, generate_key_length content context, ?_⟩
  intro c hc
  unfold generate_key pyStrTake at hc
  simp only [String.toList] at hc
  exact sha256Hexdigest_chars _ c (List.mem_of_mem_take hc)

/-! ## Rate limiter (`core/utils/rate_limiter.py`)

The token-aware sliding-window limiter keeps three deques of
`(timestamp, amount)` pairs.  `acquire` purges entries older than 60
seconds, checks all three budgets and either reserves (appends) or
cooperatively sleeps and re-checks; each re-check is one more
`rlAcquireCheck` step.  Timestamps are modelled as integers (the float
wall clock only ever enters through `<` comparisons against
`now - 60.0`). -/

/-- Configuration of the limiter (the three per-minute maximums). -/
structure RLConfig where
  maxRpm : Nat
  maxInTok : Nat
  maxOutTok : Nat
  modelMaxTokens : Nat

/-- The three sliding-window deques of `(timestamp, amount)` entries. -/
structure RLState where
  reqTimes : List (Int × Nat)
  inTokTimes : List (Int × Nat)
  outTokTimes : List (Int × Nat)

/-- Embedding of `RateLimiter._within`: the window sum plus the candidate
amount must stay at or below the limit. -/
def rlWithin (deq : List (Int × Nat)) (limit add : Nat) : Bool :=
  (deq.map (fun e => e.2)).sum + add ≤ limit

/-- Embedding of `RateLimiter._purge_old`: pop entries from the front
while they are older than `now - 60` seconds. -/
def rlPurgeOld (now : Int) (deq : List (Int × Nat)) : List (Int × Nat) :=
  deq.dropWhile (fun e => e.1 < now - 60)

/-- One pass of the `while True` admission loop of `RateLimiter.acquire`
at wall time `now`: purge all three windows, then either grant the
reservation (`some` of the new state) or report that the caller must
sleep and re-check (`none`).  The output-token estimate defaults to
`model_max_tokens // 2` when the caller passes `None`. -/
def rlAcquireCheck (cfg : RLConfig) (st : RLState) (now : Int)
    (estInputTokens : Nat) (estOutputTokens : Option Nat) : Option RLState :=
  let estOut := estOutputTokens.getD (cfg.modelMaxTokens / 2)
  let req := rlPurgeOld now st.reqTimes
  let inTok := rlPurgeOld now st.inTokTimes
  let outTok := rlPurgeOld now st.outTokTimes
  if rlWithin req cfg.maxRpm 1 ∧ rlWithin inTok cfg.maxInTok estInputTokens ∧
     rlWithin outTok cfg.maxOutTok estOut then
    some ⟨req ++ [(now, 1)], inTok ++ [(now, estInputTokens)],
          outTok ++ [(now, estOut)]⟩
  else
    none

/-- Embedding of `RateLimiter.release`: the semaphore is released (not
modelled — it carries no token state) and the last entry of the input
and output windows is optionally rewritten in place with the actual
token usage. -/
def rlRelease (st : RLState) (actInputTokens actOutputTokens : Option Nat) :
    RLState :=
  let fixLast := fun (deq : List (Int × Nat)) (act : Option Nat) =>
    match act with
    | none => deq
    | some v =>
      match deq.getLast? with
      | none => deq
      | some last => deq.dropLast ++ [(last.1, v)]
  ⟨st.reqTimes, fixLast st.inTokTimes actInputTokens,
   fixLast st.outTokTimes actOutputTokens⟩

/-- The sum of the amounts currently in a window. -/
def rlWindowSum (deq : List (Int × Nat)) : Nat :=
  (deq.map (fun e => e.2)).sum

/-- Claim C5: whenever the admission loop grants a reservation — from any
limiter state, hence from any state reachable by any sequence of
acquire/release operations — the post-admission sum of each of the three
purged 60-second windows (including the new reservation) is at or below
its configured maximum; when any budget would be exceeded the step
returns `none`, i.e. the caller sleeps and re-checks. -/
theorem rate_limiter_never_exceeds (cfg : RLConfig) (st : RLState) (now : Int)
    (estIn : Nat) (estOut : Option Nat) (st2 : RLState)
    (h : rlAcquireCheck cfg st now estIn estOut = some st2) :
    rlWindowSum st2.reqTimes ≤ cfg.maxRpm ∧
    rlWindowSum st2.inTokTimes ≤ cfg.maxInTok ∧
    rlWindowSum st2.outTokTimes ≤ cfg.maxOutTok := by
  unfold rlAcquireCheck at h
  simp only at h
  split at h
  case isTrue hcond =>
    obtain ⟨h1, h2, h3⟩ := hcond
    injection h with h
    subst h
    simp only [rlWithin, decide_eq_true_eq] at h1 h2 h3
    refine ⟨?_, ?_, ?_⟩ <;>
      simp only [rlWindowSum, List.map_append, List.sum_append, List.map_cons,
        List.map_nil, List.sum_cons, List.sum_nil] <;> omega
  case isFalse => exact absurd h (by simp)

/-- Witness for claim C5: a concrete admission that stays within budget. -/
theorem rate_limiter_never_exceeds_witness :
    rlWindowSum (RLState.mk [(0, 1)] [(0, 5)] [(0, 4)]).reqTimes ≤ 10 ∧
    rlWindowSum (RLState.mk [(0, 1)] [(0, 5)] [(0, 4)]).inTokTimes ≤ 100 ∧
    rlWindowSum (RLState.mk [(0, 1)] [(0, 5)] [(0, 4)]).outTokTimes ≤ 100 :=
  rate_limiter_never_exceeds ⟨10, 100, 100, 8⟩ ⟨[], [], []⟩ 0 5 none
    ⟨[(0, 1)], [(0, 5)], [(0, 4)]⟩ rfl

/-! ## JSON response parsing

The response validators run `json.loads` on a brace-matched snippet of
the raw LLM response.  We embed a recursive-descent parser for the JSON
fragment the pipeline exercises: objects, arrays, strings, integers,
booleans and null.  (Python also parses floats; their `repr`-level
behaviour is outside the claims, and a numeric literal with a fraction
or exponent is treated as unparseable here.)  Duplicate object keys
follow Python semantics: first position, last value wins. -/

/-- JSON whitespace. -/
def jsonWs (c : Char) : Bool :=
  c = ' ' ∨ c = '\t' ∨ c = '\n' ∨ c = '\r'

/-- Python dict insertion: a repeated key keeps its first position but
takes the latest value. -/
def pyDictInsert {β : Type} (k : String) (v : β) :
    List (String × β) → List (String × β)
  | [] => [(k, v)]
  | (k0, v0) :: rest =>
      if k0 = k then (k0, v) :: rest else (k0, v0) :: pyDictInsert k v rest

/-- Numeric value of a hex digit. -/
def hexVal (c : Char) : Option Nat :=
  if '0' ≤ c ∧ c ≤ '9' then some (c.toNat - 48)
  else if 'a' ≤ c ∧ c ≤ 'f' then some (c.toNat - 87)
  else if 'A' ≤ c ∧ c ≤ 'F' then some (c.toNat - 55)
  else none

/-- Parse the four hex digits of a `\uXXXX` escape. -/
def parseHex4 : List Char → Option (Nat × List Char)
  | c1 :: c2 :: c3 :: c4 :: rest => do
    let v1 ← hexVal c1
    let v2 ← hexVal c2
    let v3 ← hexVal c3
    let v4 ← hexVal c4
    pure (((v1 * 16 + v2) * 16 + v3) * 16 + v4, rest)
  | _ => none

/-- Parse the body of a JSON string literal (after the opening quote).
Surrogate pairs are combined; lone surrogates are rejected (a modelling
restriction — Lean characters are scalar values). -/
def parseJsonStringBody : Nat → List Char → Option (List Char × List Char)
  | 0, _ => none
  | _, [] => none
  | fuel + 1, c :: rest =>
    if c = '"' then some ([], rest)
    else if c = '\\' then
      match rest with
      | [] => none
      | e :: rest2 =>
        let simple : Option Char :=
          if e = '"' then some '"'
          else if e = '\\' then some '\\'
          else if e = '/' then some '/'
          else if e = 'b' then some (Char.ofNat 8)
          else if e = 'f' then some (Char.ofNat 12)
          else if e = 'n' then some '\n'
          else if e = 'r' then some '\r'
          else if e = 't' then some '\t'
          else none
        match simple with
        | some ch => do
          let (tail, rem) ← parseJsonStringBody fuel rest2
          pure (ch :: tail, rem)
        | none =>
          if e = 'u' then do
            let (n, rest3) ← parseHex4 rest2
            if 55296 ≤ n ∧ n ≤ 56319 then
              match rest3 with
              | '\\' :: 'u' :: rest4 => do
                let (n2, rest5) ← parseHex4 rest4
                if 56320 ≤ n2 ∧ n2 ≤ 57343 then do
                  let (tail, rem) ← parseJsonStringBody fuel rest5
                  pure (Char.ofNat (65536 + (n - 55296) * 1024 + (n2 - 56320))
                          :: tail, rem)
                else none
              | _ => none
            else if 56320 ≤ n ∧ n ≤ 57343 then none
            else do
              let (tail, rem) ← parseJsonStringBody fuel rest3
              pure (Char.ofNat n :: tail, rem)
          else none
    else if c.toNat < 32 then none
    else do
      let (tail, rem) ← parseJsonStringBody fuel rest
      pure (c :: tail, rem)

/-- Decimal digit test. -/
def isDigitChar (c : Char) : Bool := '0' ≤ c ∧ c ≤ '9'

/-- Split leading decimal digits. -/
def spanDigits : List Char → List Char × List Char
  | [] => ([], [])
  | c :: rest =>
      if isDigitChar c then
        let (ds, rem) := spanDigits rest
        (c :: ds, rem)
      else ([], c :: rest)

/-- Value of a digit string. -/
def digitsToNat : List Char → Nat
  | [] => 0
  | ds => ds.foldl (fun acc c => acc * 10 + (c.toNat - 48)) 0

/-- Parse a JSON integer literal (no leading zeros, no fraction or
exponent — see the module comment). -/
def parseJsonInt : List Char → Option (Int × List Char)
  | cs =>
    let (neg, cs2) := match cs with
      | '-' :: rest => (true, rest)
      | _ => (false, cs)
    match spanDigits cs2 with
    | ([], _) => none
    | (ds, rem) =>
      if ds.length > 1 ∧ ds.headD '0' = '0' then none
      else match rem with
        | c :: _ =>
          if c = '.' ∨ c = 'e' ∨ c = 'E' then none
          else some (if neg then -(digitsToNat ds : Int) else (digitsToNat ds : Int), rem)
        | [] => some (if neg then -(digitsToNat ds : Int) else (digitsToNat ds : Int), [])

mutual

/-- Parse one JSON value after skipping leading whitespace. -/
def parseJsonValue : Nat → List Char → Option (PyJson × List Char)
  | 0, _ => none
  | fuel + 1, cs =>
    match cs.dropWhile jsonWs with
    | [] => none
    | c :: rest =>
      if c = '"' then do
        let (body, rem) ← parseJsonStringBody (rest.length + 1) rest
        pure (PyJson.str (String.mk body), rem)
      else if c = '\x7b' then parseJsonObj fuel rest []
      else if c = '[' then parseJsonArr fuel rest
      else if c = 't' then
        match rest with
        | 'r' :: 'u' :: 'e' :: rem => some (PyJson.bool true, rem)
        | _ => none
      else if c = 'f' then
        match rest with
        | 'a' :: 'l' :: 's' :: 'e' :: rem => some (PyJson.bool false, rem)
        | _ => none
      else if c = 'n' then
        match rest with
        | 'u' :: 'l' :: 'l' :: rem => some (PyJson.null, rem)
        | _ => none
      else do
        let (i, rem) ← parseJsonInt (c :: rest)
        pure (PyJson.int i, rem)

/-- Parse the members of a JSON object after the opening brace. -/
def parseJsonObj (fuel : Nat) (cs : List Char)
    (acc : List (String × PyJson)) : Option (PyJson × List Char) :=
  match fuel with
  | 0 => none
  | fuel + 1 =>
    match cs.dropWhile jsonWs with
    | [] => none
    | c :: rest =>
      if c = '\x7d' ∧ acc.isEmpty then some (PyJson.obj [], rest)
      else if c = '"' then do
        let (key, rem) ← parseJsonStringBody (rest.length + 1) rest
        match rem.dropWhile jsonWs with
        | ':' :: rem2 => do
          let (v, rem3) ← parseJsonValue fuel rem2
          let acc2 := pyDictInsert (String.mk key) v acc
          match rem3.dropWhile jsonWs with
          | ',' :: rem4 => parseJsonObj fuel rem4 acc2
          | '\x7d' :: rem4 => some (PyJson.obj acc2, rem4)
          | _ => none
        | _ => none
      else none

/-- Parse the elements of a JSON array after the opening bracket. -/
def parseJsonArr (fuel : Nat) (cs : List Char) : Option (PyJson × List Char) :=
  match fuel with
  | 0 => none
  | fuel + 1 =>
    match cs.dropWhile jsonWs with
    | ']' :: rest => some (PyJson.arr [], rest)
    | _ => do
      let (v, rem) ← parseJsonValue fuel cs
      parseJsonArrRest fuel rem [v]

/-- Parse the remaining elements of a non-empty JSON array. -/
def parseJsonArrRest (fuel : Nat) (cs : List Char)
    (acc : List PyJson) : Option (PyJson × List Char) :=
  match fuel with
  | 0 => none
  | fuel + 1 =>
    match cs.dropWhile jsonWs with
    | ',' :: rest => do
      let (v, rem) ← parseJsonValue fuel rest
      parseJsonArrRest fuel rem (acc ++ [v])
    | ']' :: rest => some (PyJson.arr acc, rest)
    | _ => none

end

/-- Embedding of `json.loads`: parse one value and require only
whitespace afterwards. -/
def jsonLoads (s : String) : Option PyJson :=
  match parseJsonValue (2 * s.length + 2) s.toList with
  | some (v, rem) => if (rem.dropWhile jsonWs).isEmpty then some v else none
  | none => none

/-! ## Refinement helpers (`utils/refinement.py`) -/

/-- Python `str()` rendering of the JSON values that can appear in the
validator's diagnostic messages. -/
def pyStr : PyJson → String
  | .null => "None"
  | .bool true => "True"
  | .bool false => "False"
  | .int i => toString i
  | .str s => s
  | .arr _ => "<list>"
  | .obj _ => "<dict>"

/-- Embedding of the nested `_extract_json` helper: naive brace matching
from the first brace, ignoring string contents — exactly as the Python
scans character by character. -/
def braceScan : Nat → List Char → Nat → List Char → Option String
  | 0, _, _, _ => none
  | _, [], _, _ => none
  | fuel + 1, c :: rest, depth, acc =>
      if c = '\x7b' then braceScan fuel rest (depth + 1) (acc ++ [c])
      else if c = '\x7d' then
        if depth = 1 then some (String.mk (acc ++ [c]))
        else braceScan fuel rest (depth - 1) (acc ++ [c])
      else braceScan fuel rest depth (acc ++ [c])

/-- Extract the first brace-balanced snippet of `raw`; `none` models the
`ValueError`s (`No JSON object found` / `Unterminated JSON object`). -/
def extractJson (raw : String) : Option String :=
  match raw.toList.dropWhile (fun c => ¬ c = '\x7b') with
  | [] => none
  | cs => braceScan (cs.length + 1) cs 0 []

/-- Outcome of `parse_and_validate_refinement_response` (the returned
`(is_valid, result)` pair): `ok` is `(True, mapping)`, the others are the
`(False, …)` shapes. -/
inductive RefinementResult where
  | ok (mapping : List (String × String))
  | parseError
  | notObject
  | segmentsNotList
  | invalid (errs : List String)
  deriving DecidableEq

/-- The string value of an accepted old-format mapping entry (on the
accepted path every value is a JSON string). -/
def valueAsStr : PyJson → String
  | .str s => s
  | v => pyStr v

/-- Convert the new `segments` format: element `i` becomes
`P_i ↦ S_(taxonomy_id - 1)` with no membership validation at all.
`none` models the uncaught `KeyError`/`TypeError` when an element is not
an object carrying an integer (or boolean) `taxonomy_id`. -/
def convertSegmentsFormat (segs : List PyJson) (idx : Nat) :
    Option (List (String × String)) :=
  match segs with
  | [] => some []
  | seg :: rest =>
    match seg with
    | .obj kvs =>
      match kvs.lookup "taxonomy_id" with
      | some (.int n) => do
        let tail ← convertSegmentsFormat rest (idx + 1)
        pure (("P_" ++ toString idx, "S_" ++ toString (n - 1)) :: tail)
      | some (.bool b) => do
        let tail ← convertSegmentsFormat rest (idx + 1)
        pure (("P_" ++ toString idx,
               "S_" ++ toString ((if b then 1 else 0 : Int) - 1)) :: tail)
      | _ => none
    | _ => none

/-- The duplicate-key diagnostic of the old-format loop. -/
def dupErr (seen : List String) (k : String) : List String :=
  if seen.contains k then ["Duplicate product ID '" ++ k ++ "'"] else []

/-- The unknown-product diagnostic of the old-format loop. -/
def batchErr (batchProductIds : List String) (k : String) : List String :=
  if batchProductIds.contains k then []
  else ["Unknown product ID '" ++ k ++ "' not in batch"]

/-- The unknown-subcategory diagnostic of the old-format loop (a value
that is not even a string is never in the set of string ids). -/
def subcatErr (validSubcategoryIds : List String) : PyJson → List String
  | .str s =>
      if validSubcategoryIds.contains s then []
      else ["Unknown subcategory ID '" ++ s ++ "'"]
  | other => ["Unknown subcategory ID '" ++ pyStr other ++ "'"]

/-- The old-format validation loop: walk the mapping accumulating the
diagnostic strings for duplicate keys, keys outside the batch and values
outside the known subcategory ids. -/
def oldFormatErrors (batchProductIds validSubcategoryIds : List String) :
    List (String × PyJson) → List String → List String
  | [], _ => []
  | (k, v) :: rest, seen =>
    dupErr seen k ++ batchErr batchProductIds k ++ subcatErr validSubcategoryIds v ++
      oldFormatErrors batchProductIds validSubcategoryIds rest (seen ++ [k])

/-- The post-parse part of `parse_and_validate_refinement_response`: the
`isinstance` check, the empty-mapping fast path, the unvalidated
`segments` conversion, and the old-format validation loop.  `none`
models an exception escaping the function (only possible inside the
`segments` conversion, which sits outside the `try` block). -/
def validateRefinementValue (v : PyJson)
    (batchProductIds validSubcategoryIds : List String) :
    Option RefinementResult :=
  match v with
  | .obj [] => some (RefinementResult.ok [])
  | .obj kvs =>
    match kvs.lookup "segments" with
    | some (.arr segs) =>
      match convertSegmentsFormat segs 0 with
      | some converted => some (RefinementResult.ok converted)
      | none => none
    | some _ => some RefinementResult.segmentsNotList
    | none =>
      match oldFormatErrors batchProductIds validSubcategoryIds kvs [] with
      | [] => some (RefinementResult.ok
          (kvs.map (fun kv => (kv.1, valueAsStr kv.2))))
      | errs => some (RefinementResult.invalid errs)
  | _ => some RefinementResult.notObject

/-- Embedding of `parse_and_validate_refinement_response(response_text,
batch_product_ids, valid_subcategory_ids)`: brace-extract, `json.loads`,
then validate. -/
def parse_and_validate_refinement_response (responseText : String)
    (batchProductIds validSubcategoryIds : List String) :
    Option RefinementResult :=
  match extractJson responseText with
  | none => some RefinementResult.parseError
  | some snippet =>
    match jsonLoads snippet with
    | none => some RefinementResult.parseError
    | some v => validateRefinementValue v batchProductIds validSubcategoryIds


/-- The duplicate diagnostic is silent exactly off the seen set. -/
theorem dupErr_nil_iff (seen : List String) (k : String) :
    dupErr seen k = [] ↔ k ∉ seen := by
  unfold dupErr
  by_cases h : seen.contains k
  · have hm : k ∈ seen := List.elem_iff.mp h
    simp [h, hm]
  · have hm : k ∉ seen := fun hc => h (List.elem_iff.mpr hc)
    simp [h, hm]

/-- The unknown-product diagnostic is silent exactly on the batch. -/
theorem batchErr_nil_iff (batch : List String) (k : String) :
    batchErr batch k = [] ↔ k ∈ batch := by
  unfold batchErr
  by_cases h : batch.contains k
  · have hm : k ∈ batch := List.elem_iff.mp h
    simp [h, hm]
  · have hm : k ∉ batch := fun hc => h (List.elem_iff.mpr hc)
    simp [h, hm]

/-- The unknown-subcategory diagnostic is silent exactly on string values
naming known ids. -/
theorem subcatErr_nil_iff (valid : List String) (v : PyJson) :
    subcatErr valid v = [] ↔ ∃ s, v = PyJson.str s ∧ s ∈ valid := by
  cases v with
  | str s =>
    constructor
    · intro he
      simp only [subcatErr] at he
      by_cases h : valid.contains s
      · exact ⟨s, rfl, List.elem_iff.mp h⟩
      · rw [if_neg h] at he
        exact absurd he (by simp)
    · rintro ⟨s2, heq, hmem⟩
      injection heq with heq
      subst heq
      simp only [subcatErr]
      exact if_pos (List.elem_iff.mpr hmem)
  | null => simp [subcatErr]
  | bool b => simp [subcatErr]
  | int i => simp [subcatErr]
  | arr l => simp [subcatErr]
  | obj l => simp [subcatErr]

/-- The old-format loop reports no error exactly when the keys are fresh
and pairwise distinct, every key is in the batch, and every value is a
string naming a known subcategory. -/
theorem oldFormatErrors_nil_iff (batch valid : List String) :
    ∀ (m : List (String × PyJson)) (seen : List String),
      oldFormatErrors batch valid m seen = [] ↔
        ((m.map Prod.fst).Nodup ∧ (∀ k ∈ m.map Prod.fst, k ∉ seen) ∧
         ∀ kv ∈ m, kv.1 ∈ batch ∧ ∃ s, kv.2 = PyJson.str s ∧ s ∈ valid) := by
  intro m
  induction m with
  | nil => intro seen; simp [oldFormatErrors]
  | cons kv rest ih =>
    intro seen
    obtain ⟨k, v⟩ := kv
    rw [oldFormatErrors, List.append_eq_nil, List.append_eq_nil,
      List.append_eq_nil, dupErr_nil_iff, batchErr_nil_iff, subcatErr_nil_iff,
      ih (seen ++ [k])]
    constructor
    · rintro ⟨⟨⟨hks, hkb⟩, hsv⟩, hnodup, hfresh, hall⟩
      refine ⟨?_, ?_, ?_⟩
      · simp only [List.map_cons, List.nodup_cons]
        refine ⟨fun hmem => ?_, hnodup⟩
        have := hfresh _ hmem
        simp at this
      · intro k2 hk2
        simp only [List.map_cons, List.mem_cons] at hk2
        rcases hk2 with h | h
        · subst h; exact hks
        · have := hfresh _ h
          simp at this
          exact fun hc => this.1 hc
      · intro kv2 hkv2
        rcases List.mem_cons.mp hkv2 with h | h
        · subst h; exact ⟨hkb, hsv⟩
        · exact hall kv2 h
    · rintro ⟨hnodup, hfresh, hall⟩
      simp only [List.map_cons, List.nodup_cons] at hnodup
      have hk := hfresh k (by simp)
      have hcur := hall (k, v) (by simp)
      refine ⟨⟨⟨hk, hcur.1⟩, hcur.2⟩, hnodup.2, ?_, ?_⟩
      · intro k2 hk2
        simp only [List.mem_append, List.mem_singleton]
        push_neg
        refine ⟨hfresh k2 (by simp [hk2]), ?_⟩
        intro heq
        subst heq
        exact hnodup.1 hk2
      · intro kv2 hkv2
        exact hall kv2 (by simp [hkv2])

/-- The condition under which the refinement validator accepts a parsed
mapping `m`: the empty object, or the new `segments` format (converted
with no membership validation at all), or the old format with every key
unique and in the batch and every value a known subcategory-id string. -/
def refinementAcceptCondition (m : List (String × PyJson))
    (batch valid : List String) : Prop :=
  m = [] ∨
  (∃ segs, m.lookup "segments" = some (PyJson.arr segs) ∧
    (convertSegmentsFormat segs 0).isSome) ∨
  (m.lookup "segments" = none ∧ (m.map Prod.fst).Nodup ∧
   ∀ kv ∈ m, kv.1 ∈ batch ∧ ∃ s, kv.2 = PyJson.str s ∧ s ∈ valid)

/-- The accept condition forces a `segments` entry to be an array. -/
theorem acceptCondition_lookup_arr (m : List (String × PyJson))
    (batch valid : List String) (v : PyJson) (hnm : m ≠ [])
    (hlook : m.lookup "segments" = some v)
    (hv : ∀ segs, v ≠ PyJson.arr segs) :
    ¬ refinementAcceptCondition m batch valid := by
  rintro (h | ⟨segs, hs, _⟩ | ⟨hnone, _, _⟩)
  · exact hnm h
  · rw [hlook] at hs
    injection hs with hs
    exact hv segs hs
  · rw [hlook] at hnone
    cases hnone

/-- Value-level acceptance condition of the refinement validator. -/
theorem validateRefinementValue_ok_iff (m : List (String × PyJson))
    (batch valid : List String) :
    (∃ mapping, validateRefinementValue (PyJson.obj m) batch valid =
        some (RefinementResult.ok mapping)) ↔
      refinementAcceptCondition m batch valid := by
  cases m with
  | nil =>
    refine iff_of_true ⟨[], rfl⟩ (Or.inl rfl)
  | cons kv rest =>
    simp only [validateRefinementValue]
    split
    next segs hlook =>
      split
      next conv hconv =>
        exact iff_of_true ⟨conv, rfl⟩
          (Or.inr (Or.inl ⟨segs, hlook, by rw [hconv]; rfl⟩))
      next hconv =>
        refine iff_of_false ?_ ?_
        · rintro ⟨mapping, hmap⟩
          cases hmap
        · rintro (h | ⟨segs2, hs2, hsome⟩ | ⟨hnone, _, _⟩)
          · cases h
          · rw [hlook] at hs2
            injection hs2 with hs2
            injection hs2 with hs2
            subst hs2
            rw [hconv] at hsome
            cases hsome
          · rw [hlook] at hnone
            cases hnone
    next v hne hlook =>
      refine iff_of_false ?_ (acceptCondition_lookup_arr _ batch valid _
        (by simp) hlook ?_)
      · rintro ⟨mapping, hmap⟩
        injection hmap with hmap
        cases hmap
      · intro segs h
        subst h
        exact hne segs rfl
    next hlook =>
      split
      next herr =>
        have hcond := (oldFormatErrors_nil_iff batch valid (kv :: rest) []).mp herr
        exact iff_of_true ⟨_, rfl⟩
          (Or.inr (Or.inr ⟨hlook, hcond.1, hcond.2.2⟩))
      next e es herr =>
        refine iff_of_false ?_ ?_
        · rintro ⟨mapping, hmap⟩
          injection hmap with hmap
          cases hmap
        · rintro (h | ⟨segs, hs, _⟩ | ⟨_, hnodup, hall⟩)
          · cases h
          · rw [hlook] at hs
            cases hs
          · exact herr ((oldFormatErrors_nil_iff batch valid (kv :: rest) []).mpr
              ⟨hnodup, by simp, hall⟩)

/-- Claim C6 fails on the code: the response
`{"segments": [{"taxonomy_id": 7}]}` parses to a mapping whose only key,
`segments`, is not in the batch, yet the validator accepts it and
converts it to `{"P_0": "S_6"}` — with `P_0` not a batch product id and
`S_6` not a known subcategory id.  The `segments` branch performs no
membership validation at all. -/
theorem refinement_validator_iff_counterexample :
    parse_and_validate_refinement_response
        "\x7b\"segments\": [\x7b\"taxonomy_id\": 7\x7d]\x7d" ["P_5"] ["S_0"] =
      some (RefinementResult.ok [("P_0", "S_6")]) ∧
    (extractJson "\x7b\"segments\": [\x7b\"taxonomy_id\": 7\x7d]\x7d").bind
        jsonLoads =
      some (PyJson.obj [("segments",
        PyJson.arr [PyJson.obj [("taxonomy_id", PyJson.int 7)]])]) ∧
    ¬ ("segments" ∈ (["P_5"] : List String)) ∧
    ¬ ("P_0" ∈ (["P_5"] : List String)) ∧
    ¬ ("S_6" ∈ (["S_0"] : List String)) := by
  refine ⟨rfl, rfl, by decide, by decide, by decide⟩

/-- Amended claim C6: for every refinement response text that parses (via
brace extraction and `json.loads`) to a JSON object `m`, the validator
accepts if and only if `m` is empty (no changes), or `m` carries the new
`segments` format and every element converts (with **no** membership
validation of either side), or `m` is an old-format mapping whose keys
are pairwise distinct and all in the batch and whose values are all
known consolidated-taxonomy id strings; missing `P_i` keys are never an
error. -/
theorem refinement_validator_accepts_iff (text : String)
    (batch valid : List String) (m : List (String × PyJson))
    (hparse : (extractJson text).bind jsonLoads = some (PyJson.obj m)) :
    (∃ mapping, parse_and_validate_refinement_response text batch valid =
        some (RefinementResult.ok mapping)) ↔
      refinementAcceptCondition m batch valid := by
  obtain ⟨snip, hsnip, hload⟩ := Option.bind_eq_some.mp hparse
  have hfn : parse_and_validate_refinement_response text batch valid =
      validateRefinementValue (PyJson.obj m) batch valid := by
    simp only [parse_and_validate_refinement_response, hsnip, hload]
  rw [hfn]
  exact validateRefinementValue_ok_iff m batch valid

/-- Witness for the amended claim C6 at a concrete accepted response. -/
theorem refinement_validator_accepts_iff_witness :
    (∃ mapping, parse_and_validate_refinement_response
        "\x7b\"P_0\": \"S_1\"\x7d" ["P_0"] ["S_1"] =
          some (RefinementResult.ok mapping)) ↔
      refinementAcceptCondition [("P_0", PyJson.str "S_1")] ["P_0"] ["S_1"] :=
  refinement_validator_accepts_iff "\x7b\"P_0\": \"S_1\"\x7d" ["P_0"] ["S_1"]
    [("P_0", PyJson.str "S_1")] rfl

/-! ## LLM client (`llm/product_segmentation_client.py`)

The client is embedded with its effects made explicit: the LLM provider
(`safe_llm_call`) is an injected call-indexed oracle `Nat → Option String`
(`none` models a transport exception), the product store is an injected
title map, and the file cache is an explicit key → response map.  Each
operation also reports how many provider calls and cache lookups it
performed, which is what claims C4 and C7 are about. -/

/-- A segment dict (`{"product_id": …, "taxonomy_id": …}` plus the
optional `category_name`/`title` keys some flows add). -/
structure Segment where
  product_id : Int
  taxonomy_id : Int
  category_name : Option String
  title : Option String
  deriving DecidableEq

/-- A taxonomy dict as produced by `segment_products` /
`consolidate_taxonomy` (`definition` is the raw JSON value the LLM
returned). -/
structure TaxonomyDict where
  category_name : String
  definition : PyJson
  product_count : Nat

/-- A consolidated-taxonomy entry as consumed by `refine_assignments`
(`category_name` plus optional `definition`). -/
structure Taxonomy where
  category_name : String
  definition : Option String
  deriving DecidableEq

/-- `MAX_RETRIES` from `product_segmentation/config.py`. -/
def MAX_RETRIES : Nat := 3

/-- `PRODUCTS_PER_TAXONOMY_PROMPT` from `product_segmentation/config.py`. -/
def PRODUCTS_PER_TAXONOMY_PROMPT : Nat := 40

/-- `PRODUCTS_PER_REFINEMENT` from `product_segmentation/config.py`. -/
def PRODUCTS_PER_REFINEMENT : Nat := 40

mutual

/-- Embedding of `json.dumps(value, indent=2)` (no key sorting), as used
for the consolidation prompt payloads. -/
def pyJsonDumpsIndent (level : Nat) : PyJson → String
  | .null => "null"
  | .bool true => "true"
  | .bool false => "false"
  | .int i => toString i
  | .str s => pyJsonQuote s
  | .arr [] => "[]"
  | .arr (x :: xs) =>
      "[\n" ++ String.intercalate ",\n"
        (pyJsonDumpsIndentList (level + 2) (x :: xs)) ++
      "\n" ++ String.mk (List.replicate level ' ') ++ "]"
  | .obj [] => "\x7b\x7d"
  | .obj (kv :: kvs) =>
      "\x7b\n" ++ String.intercalate ",\n"
        ((pyJsonDumpsIndentPairs (level + 2) (kv :: kvs)).map
          (fun p => String.mk (List.replicate (level + 2) ' ') ++
            pyJsonQuote p.1 ++ ": " ++ p.2)) ++
      "\n" ++ String.mk (List.replicate level ' ') ++ "\x7d"

/-- Indented rendering of array elements. -/
def pyJsonDumpsIndentList (level : Nat) : List PyJson → List String
  | [] => []
  | x :: xs =>
      (String.mk (List.replicate level ' ') ++ pyJsonDumpsIndent level x) ::
        pyJsonDumpsIndentList level xs

/-- Indented rendering of object values, keeping the keys. -/
def pyJsonDumpsIndentPairs (level : Nat) : List (String × PyJson) → List (String × String)
  | [] => []
  | (k, v) :: xs => (k, pyJsonDumpsIndent level v) :: pyJsonDumpsIndentPairs level xs

end

/-- The environment the client operations run in.  The provider takes the
call index (within one client operation) and the prompt. -/
structure ClientEnv where
  provider : Nat → String → Option String
  cache : Option (List (String × String))
  promptExtract : String
  promptConsolidate : String
  promptRefine : String
  modelName : String
  temperatureJson : PyJson
  maxRetries : Nat
  setOrder : List String → List String
  renderDiag : RefinementResult → String
  titleMap : Int → Option String

/-- Embedding of `_build_batch_input`: render `[i] title` lines, with the
`Product <id>` placeholder for missing or empty titles.  The upstream
Supabase read is modelled by the injected `titleMap`. -/
def buildBatchInput (titleMap : Int → Option String) (products : List Int) : String :=
  if products.isEmpty then ""
  else String.intercalate "\n" (products.enum.map (fun p =>
    "[" ++ toString p.1 ++ "] " ++
      (match titleMap p.2 with
       | some t => if t = "" then "Product " ++ toString p.2 else t
       | none => "Product " ++ toString p.2)))

/-- The character-list recursion behind `pyReplace` (fuel bounds the
number of steps; one step consumes at least one character). -/
def strReplaceAux (pat rep : List Char) : Nat → List Char → List Char
  | 0, s => s
  | _, [] => []
  | fuel + 1, c :: rest =>
    if pat.isPrefixOf (c :: rest) then
      rep ++ strReplaceAux pat rep fuel ((c :: rest).drop pat.length)
    else c :: strReplaceAux pat rep fuel rest

/-- Embedding of Python `s.replace(pat, rep)`: replace every
(non-overlapping, left-to-right) occurrence. -/
def pyReplace (s pat rep : String) : String :=
  if pat = "" then s
  else String.mk (strReplaceAux pat.toList rep.toList s.toList.length s.toList)

/-- Embedding of `_parse_segmentation_response`: `json.loads` the raw
response (no brace extraction here), require a JSON object whose values
are objects carrying `definition` and `ids`; `none` models the raised
`ValueError`. -/
def parseSegmentationResponse (response : String) :
    Option (List (String × PyJson)) :=
  match jsonLoads response with
  | some (PyJson.obj kvs) =>
    if kvs.all (fun kv =>
        match kv.2 with
        | PyJson.obj fields =>
            (fields.lookup "definition").isSome ∧ (fields.lookup "ids").isSome
        | _ => false) then
      some kvs
    else none
  | _ => none

/-- Convert a parsed segmentation response to the service format: skip
`OUT_OF_SCOPE`, emit one taxonomy per category and one segment per id,
with 1-based `taxonomy_id` and `product_id` taken **directly from the
response's positional ids** (they are never mapped back to real product
ids).  Ids are required to be an array of integers (other shapes would
produce degenerate rows downstream and are modelled as errors). -/
def segResultConvert : List (String × PyJson) → Nat →
    Option (List TaxonomyDict × List Segment)
  | [], _ => some ([], [])
  | (name, data) :: rest, taxCount =>
    if name = "OUT_OF_SCOPE" then segResultConvert rest taxCount
    else
      match data with
      | PyJson.obj fields =>
        match fields.lookup "definition", fields.lookup "ids" with
        | some defn, some (PyJson.arr ids) => do
          let pids ← ids.mapM (fun v =>
            match v with
            | PyJson.int n => some n
            | _ => none)
          let (taxs, segs) ← segResultConvert rest (taxCount + 1)
          pure (⟨name, defn, ids.length⟩ :: taxs,
                pids.map (fun pid =>
                  Segment.mk pid ((taxCount : Int) + 1) none none) ++ segs)
        | _, _ => none
      | _ => none

/-- Outcome and effect trace of one `segment_products` call. -/
structure SegRun where
  result : Except Unit (List TaxonomyDict × List Segment)
  providerCalls : Nat
  cacheLookups : Nat

/-- The result of `ProductSegmentationLLMClient.segment_products` on a
non-empty input: build the positional prompt, call the provider once via
`safe_llm_call`, parse and convert.  A parse failure propagates with no
retry. -/
def segmentOutcome (env : ClientEnv) (products : List Int)
    (category : Option String) : Except Unit (List TaxonomyDict × List Segment) :=
  let basePrompt :=
    match category with
    | some c => pyReplace env.promptExtract "\x7bproduct_category\x7d" c
    | none => env.promptExtract
  let fullPrompt := basePrompt ++ "\n\n" ++ buildBatchInput env.titleMap products
  match env.provider 0 fullPrompt with
  | none => .error ()
  | some resp =>
    match parseSegmentationResponse resp with
    | none => .error ()
    | some kvs =>
      match segResultConvert kvs 0 with
      | none => .error ()
      | some (taxs, segs) => .ok (taxs, segs)

/-- Embedding of `ProductSegmentationLLMClient.segment_products` with its
effect trace: on a non-empty input exactly one provider call is made
(before any parsing), and the cache is never consulted. -/
def segment_products (env : ClientEnv) (products : List Int)
    (category : Option String) : SegRun :=
  if products.isEmpty then ⟨.ok ([], []), 0, 0⟩
  else ⟨segmentOutcome env products category, 1, 0⟩

/-- Embedding of `convert_group` inside
`_prepare_taxonomies_for_consolidation`: map each taxonomy name to its
definition and a singleton synthetic id `<pfx>_<i>`. -/
def convertGroup (group : List TaxonomyDict) (pfx : String) :
    List (String × (PyJson × List String)) :=
  group.enum.foldl (fun acc p =>
    pyDictInsert p.2.category_name
      (p.2.definition, [pfx ++ "_" ++ toString p.1]) acc) []

/-- Render a consolidation group as the JSON value that is dumped into
the prompt. -/
def groupToJson (g : List (String × (PyJson × List String))) : PyJson :=
  PyJson.obj (g.map (fun kv =>
    (kv.1, PyJson.obj [("definition", kv.2.1),
                       ("ids", PyJson.arr (kv.2.2.map PyJson.str))])))

/-- The id-scanning loop of the consolidation validator: collect the
diagnostics and the set of well-formed ids found so far. -/
def consolidateScanIds : List PyJson → List String → List String × List String
  | [], found => ([], found)
  | v :: rest, found =>
    match v with
    | .str s =>
      if ¬ (s.startsWith "A_" ∨ s.startsWith "B_") then
        let (errs, found2) := consolidateScanIds rest found
        (("Invalid ID '" ++ s ++ "' must start with A_ or B_") :: errs, found2)
      else if found.contains s then
        let (errs, found2) := consolidateScanIds rest found
        (("Duplicate ID " ++ s) :: errs, found2)
      else consolidateScanIds rest (found ++ [s])
    | other =>
      let (errs, found2) := consolidateScanIds rest found
      (("Invalid ID '" ++ pyStr other ++ "' must be string") :: errs, found2)

/-- The per-category loop of the consolidation validator. -/
def consolidateScan : List (String × PyJson) → List String →
    List String × List String
  | [], found => ([], found)
  | (cat, data) :: rest, found =>
    match data with
    | .obj fields =>
      match fields.lookup "ids" with
      | some (.arr ids) =>
        let (errsHere, found2) := consolidateScanIds ids found
        let (errsRest, found3) := consolidateScan rest found2
        (errsHere ++ errsRest, found3)
      | _ =>
        let (errsRest, found2) := consolidateScan rest found
        (("Category '" ++ cat ++ "' ids must be list") :: errsRest, found2)
    | _ =>
      let (errsRest, found2) := consolidateScan rest found
      (("Category '" ++ cat ++ "' data must be a dictionary") :: errsRest, found2)

/-- Embedding of `_parse_and_validate_consolidate_response`: `none`
models a raised `ValueError` (unparseable JSON, non-object root, or a
category missing `definition`/`ids`); otherwise the `(is_valid, …)`
pair, where validity requires well-formed `A_*`/`B_*` ids with no
duplicates and exact coverage of the synthetic ids of both input
groups. -/
def consolidateValidate (response : String)
    (ga gb : List (String × (PyJson × List String))) :
    Option (Bool × List (String × PyJson)) :=
  match jsonLoads response with
  | some (PyJson.obj kvs) =>
    if kvs.all (fun kv =>
        match kv.2 with
        | .obj fields =>
            (fields.lookup "definition").isSome ∧ (fields.lookup "ids").isSome
        | _ => false) then
      let scan := consolidateScan kvs []
      let expected := (ga.map (fun kv => kv.2.2)).flatten ++
                      (gb.map (fun kv => kv.2.2)).flatten
      let missing := expected.filter (fun e => ¬ scan.2.contains e)
      let extra := scan.2.filter (fun f => ¬ expected.contains f)
      if scan.1.isEmpty ∧ missing.isEmpty ∧ extra.isEmpty then some (true, kvs)
      else some (false, kvs)
    else none
  | _ => none

/-- Convert a validated consolidation response back to taxonomy dicts. -/
def consolidateResultConvert : List (String × PyJson) → Option (List TaxonomyDict)
  | [] => some []
  | (name, data) :: rest =>
    match data with
    | .obj fields =>
      match fields.lookup "definition", fields.lookup "ids" with
      | some defn, some (.arr ids) => do
        let tail ← consolidateResultConvert rest
        pure (⟨name, defn, ids.length⟩ :: tail)
      | _, _ => none
    | _ => none

/-- Outcome and effect trace of one `consolidate_taxonomy` call. -/
structure ConsolidateRun where
  result : Except Unit (List TaxonomyDict)
  providerCalls : Nat
  cacheLookups : Nat

/-- The result of `ProductSegmentationLLMClient.consolidate_taxonomy` on
two or more taxonomies: the list is halved, rendered into the prompt,
and the provider is called exactly once — no retry (an invalid response
raises `ValueError`). -/
def consolidateOutcome (env : ClientEnv) (taxonomies : List TaxonomyDict) :
    Except Unit (List TaxonomyDict) :=
  let mid := taxonomies.length / 2
  let ga := convertGroup (taxonomies.take mid) "A"
  let gb := convertGroup (taxonomies.drop mid) "B"
  let basePrompt :=
    pyReplace
      (pyReplace env.promptConsolidate "\x7btaxonomy_a\x7d"
        (pyJsonDumpsIndent 0 (groupToJson ga))) "\x7btaxonomy_b\x7d"
      (pyJsonDumpsIndent 0 (groupToJson gb))
  match env.provider 0 basePrompt with
  | none => .error ()
  | some resp =>
    match consolidateValidate resp ga gb with
    | none => .error ()
    | some (false, _) => .error ()
    | some (true, kvs) =>
      match consolidateResultConvert kvs with
      | some out => .ok out
      | none => .error ()

/-- Embedding of `ProductSegmentationLLMClient.consolidate_taxonomy` with
its effect trace: zero or one input taxonomies pass through with no LLM
call; otherwise exactly one provider call is made (before any parsing)
and the cache is never consulted. -/
def consolidate_taxonomy (env : ClientEnv) (taxonomies : List TaxonomyDict) :
    ConsolidateRun :=
  match taxonomies with
  | [] => ⟨.ok [], 0, 0⟩
  | [t] => ⟨.ok [t], 0, 0⟩
  | _ => ⟨consolidateOutcome env taxonomies, 1, 0⟩

/-- Embedding of the consolidated-taxonomy dict comprehension in
`refine_assignments`: `{t["category_name"]: {"definition": t.get("definition","") or ""}}`. -/
def buildConsolidated (taxonomies : List Taxonomy) : List (String × String) :=
  taxonomies.foldl (fun acc t =>
    pyDictInsert t.category_name (t.definition.getD "") acc) []

/-- The per-entry recursion of `build_subcategories_section`: the text
lines and both direction maps, with ids `S_<idx>`. -/
def subcatLines : List (String × String) → Nat →
    List String × List (String × String) × List (String × String)
  | [], _ => ([], [], [])
  | (name, defn) :: rest, idx =>
    let sid := "S_" ++ toString idx
    let (ls, s2i, i2s) := subcatLines rest (idx + 1)
    (("[" ++ sid ++ "] " ++ name ++ ": " ++ defn) :: ls,
     (name, sid) :: s2i, (sid, name) :: i2s)

/-- Embedding of `build_subcategories_section`: header plus one line per
consolidated category, and the bidirectional name/id maps. -/
def build_subcategories_section (consolidated : List (String × String)) :
    String × List (String × String) × List (String × String) :=
  let (ls, s2i, i2s) := subcatLines consolidated 0
  (String.intercalate "\n" ("**SUBCATEGORIES:**" :: ls) ++ "\n", s2i, i2s)

/-- The per-product recursion of `build_products_section`; `none` models
the `ValueError` raised when a product's current category is missing or
unknown. -/
def productLines (subToId : List (String × String)) :
    List Segment → Nat → Option (List String × List (String × Int))
  | [], _ => some ([], [])
  | seg :: rest, counter =>
    let pid := "P_" ++ toString counter
    match seg.category_name with
    | none => none
    | some cat =>
      match subToId.lookup cat with
      | none => none
      | some sid => do
        let (ls, m) ← productLines subToId rest (counter + 1)
        let title := seg.title.getD "<no title>"
        pure (("[" ++ pid ++ "] " ++ title ++ " → " ++ sid ++
               " (" ++ cat ++ ")") :: ls,
              (pid, seg.product_id) :: m)

/-- Embedding of `build_products_section` (with the default
`start_idx = 0`). -/
def build_products_section (products : List Segment)
    (subToId : List (String × String)) :
    Option (String × List (String × Int)) := do
  let (ls, m) ← productLines subToId products 0
  pure (String.intercalate "\n"
    ("\n**PRODUCTS WITH CURRENT ASSIGNMENTS:**" :: ls) ++ "\n", m)

/-- Embedding of the `setdefault("category_name", …)` augmentation loop:
fill in the category name from the (1-based) `taxonomy_id` when absent
and in range. -/
def augmentSegments (segments : List Segment) (taxonomies : List Taxonomy) :
    List Segment :=
  segments.map (fun s =>
    if s.category_name.isNone ∧ 1 ≤ s.taxonomy_id ∧
        s.taxonomy_id ≤ (taxonomies.length : Int) then
      { s with category_name :=
          (taxonomies.get? (s.taxonomy_id - 1).toNat).map Taxonomy.category_name }
    else s)

/-- Embedding of `_apply_reassignments`.  The name → 1-based-id map is
built from the Python **set** of current category names, whose iteration
order is implementation-defined; it is injected as `setOrder` (intended
to return the distinct names in the set's order).  `none` models the
uncaught `KeyError`s (a segment without `category_name`, or a
reassignment to an id absent from `id_to_subcategory`). -/
def applyReassignments (setOrder : List String → List String)
    (segments : List Segment) (reassignments : List (String × String))
    (idToProduct : List (String × Int)) (idToSub : List (String × String)) :
    Option (List Segment) := do
  let names ← segments.mapM (fun s => s.category_name)
  let catToTax := (setOrder names).enum.map (fun p => (p.2, (p.1 : Int) + 1))
  segments.mapM (fun seg =>
    match (idToProduct.find? (fun kv => kv.2 == seg.product_id)).map Prod.fst with
    | some reKey =>
      match reassignments.lookup reKey with
      | some sid =>
        match idToSub.lookup sid with
        | none => none
        | some newCat =>
          some { seg with
                 taxonomy_id := (catToTax.lookup newCat).getD seg.taxonomy_id,
                 category_name := some newCat }
      | none => some seg
    | none => some seg)

/-- Everything `refine_assignments` computes before touching the cache or
the provider. -/
structure RefinePrep where
  augmented : List Segment
  subcatsSection : String
  productsSection : String
  fullPrompt : String
  cacheCtx : PyJson
  idToProduct : List (String × Int)
  idToSub : List (String × String)

/-- The cache context dict of `refine_assignments` (model, temperature,
taxonomy names). -/
def mkCacheCtx (env : ClientEnv) (consolidated : List (String × String)) : PyJson :=
  PyJson.obj [("model", PyJson.str env.modelName),
              ("temperature", env.temperatureJson),
              ("taxonomy_checksum",
               PyJson.arr (consolidated.map (fun kv => PyJson.str kv.1)))]

/-- The pre-loop phase of `refine_assignments`; `none` models the
`ValueError` propagating out of `build_products_section`. -/
def refinePrep (env : ClientEnv) (segments : List Segment)
    (taxonomies : List Taxonomy) : Option RefinePrep :=
  let consolidated := buildConsolidated taxonomies
  let (subcats, subToId, idToSub) := build_subcategories_section consolidated
  let aug := augmentSegments segments taxonomies
  match build_products_section aug subToId with
  | none => none
  | some (products, idToProduct) =>
    some ⟨aug, subcats, products,
          env.promptRefine ++ "\n\n" ++ subcats ++ products,
          mkCacheCtx env consolidated, idToProduct, idToSub⟩

/-- Embedding of `LLMCache.save_response`: store under the generated key
(Python overwrites the cache file for an existing key). -/
def cacheSave (c : List (String × String)) (prompt response : String)
    (ctx : PyJson) : List (String × String) :=
  pyDictInsert (generate_key prompt (some ctx)) response c

/-- Embedding of the `for attempt in range(self._max_retries)` loop of
`refine_assignments`.  Arguments: the current prompt, the remaining
attempts, the provider call index so far, and the cache state.  Returns
the result, the total provider calls made, and the final cache.  A
transport failure or a crash of the validator or of
`_apply_reassignments` on the last attempt re-raises; a validation
failure on the last attempt falls out of the loop, which returns the
(augmented) input segments with `cache_key = None`. -/
def refineLoop (env : ClientEnv) (prep : RefinePrep) (cacheKey : Option String) :
    String → Nat → Nat → Option (List (String × String)) →
    Except Unit (List Segment × Option String) × Nat × Option (List (String × String))
  | _, 0, callIdx, cache => (.ok (prep.augmented, none), callIdx, cache)
  | fullPrompt, rem + 1, callIdx, cache =>
    match env.provider callIdx fullPrompt with
    | none =>
      if rem = 0 then (.error (), callIdx + 1, cache)
      else refineLoop env prep cacheKey fullPrompt rem (callIdx + 1) cache
    | some responseText =>
      let cache2 := cache.map (fun c => cacheSave c fullPrompt responseText prep.cacheCtx)
      match parse_and_validate_refinement_response responseText
          (prep.idToProduct.map Prod.fst) (prep.idToSub.map Prod.fst) with
      | none =>
        if rem = 0 then (.error (), callIdx + 1, cache2)
        else refineLoop env prep cacheKey fullPrompt rem (callIdx + 1) cache2
      | some (RefinementResult.ok mapping) =>
        match applyReassignments env.setOrder prep.augmented mapping
            prep.idToProduct prep.idToSub with
        | some updated => (.ok (updated, cacheKey), callIdx + 1, cache2)
        | none =>
          if rem = 0 then (.error (), callIdx + 1, cache2)
          else refineLoop env prep cacheKey fullPrompt rem (callIdx + 1) cache2
      | some other =>
        refineLoop env prep cacheKey
          (if rem = 0 then fullPrompt
           else env.promptRefine ++ "\n\nPREVIOUS ATTEMPT HAD ISSUES:\n" ++
             env.renderDiag other ++ "\n\n" ++ prep.subcatsSection ++
             prep.productsSection)
          rem (callIdx + 1) cache2

/-- Outcome and effect trace of one `refine_assignments` call. -/
structure RefineRun where
  result : Except Unit (List Segment × Option String)
  providerCalls : Nat
  cacheLookups : Nat
  cache : Option (List (String × String))

/-- Embedding of `ProductSegmentationLLMClient.refine_assignments`:
pass-through without taxonomy context; otherwise build the prompt,
consult the file cache first when one is configured (returning the
stored response with zero provider calls when it validates and
applies), then run the retry loop. -/
def refine_assignments (env : ClientEnv) (segments : List Segment)
    (taxonomies : Option (List Taxonomy)) : RefineRun :=
  match taxonomies with
  | none => ⟨.ok (segments, none), 0, 0, env.cache⟩
  | some taxs =>
    match refinePrep env segments taxs with
    | none => ⟨.error (), 0, 0, env.cache⟩
    | some prep =>
      match env.cache with
      | none =>
        let (res, calls, cache2) :=
          refineLoop env prep none prep.fullPrompt env.maxRetries 0 none
        ⟨res, calls, 0, cache2⟩
      | some c =>
        let cacheKey := generate_key prep.fullPrompt (some prep.cacheCtx)
        match c.lookup cacheKey with
        | some cachedText =>
          match parse_and_validate_refinement_response cachedText
              (prep.idToProduct.map Prod.fst) (prep.idToSub.map Prod.fst) with
          | none => ⟨.error (), 0, 1, some c⟩
          | some (RefinementResult.ok mapping) =>
            match applyReassignments env.setOrder prep.augmented mapping
                prep.idToProduct prep.idToSub with
            | none => ⟨.error (), 0, 1, some c⟩
            | some updated => ⟨.ok (updated, some cacheKey), 0, 1, some c⟩
          | some _ =>
            let (res, calls, cache2) :=
              refineLoop env prep (some cacheKey) prep.fullPrompt
                env.maxRetries 0 (some c)
            ⟨res, calls, 1, cache2⟩
        | none =>
          let (res, calls, cache2) :=
            refineLoop env prep (some cacheKey) prep.fullPrompt
              env.maxRetries 0 (some c)
          ⟨res, calls, 1, cache2⟩

/-- The retry loop under permanent validation failure: every attempt is
consumed and the loop falls through to the original (augmented)
segments, with no exception. -/
theorem refineLoop_all_invalid (env : ClientEnv) (prep : RefinePrep)
    (hfail : ∀ i p, ∃ r, env.provider i p = some r ∧
      ∃ out, parse_and_validate_refinement_response r
          (prep.idToProduct.map Prod.fst) (prep.idToSub.map Prod.fst) =
        some out ∧ ∀ m, out ≠ RefinementResult.ok m) :
    ∀ (rem callIdx : Nat) (prompt : String),
      refineLoop env prep none prompt rem callIdx none =
        (.ok (prep.augmented, none), callIdx + rem, none) := by
  intro rem
  induction rem with
  | zero => intro callIdx prompt; rfl
  | succ rem ih =>
    intro callIdx prompt
    obtain ⟨r, hr, out, hout, hne⟩ := hfail callIdx prompt
    have harith : callIdx + 1 + rem = callIdx + (rem + 1) := by omega
    cases out with
    | ok m => exact absurd rfl (hne m)
    | parseError =>
      rw [refineLoop]
      simp only [hr, hout, Option.map_none']
      rw [ih, harith]
    | notObject =>
      rw [refineLoop]
      simp only [hr, hout, Option.map_none']
      rw [ih, harith]
    | segmentsNotList =>
      rw [refineLoop]
      simp only [hr, hout, Option.map_none']
      rw [ih, harith]
    | invalid errs =>
      rw [refineLoop]
      simp only [hr, hout, Option.map_none']
      rw [ih, harith]

/-- Claim C7 fails on the code: with the default `MAX_RETRIES = 3`, a
refinement batch whose responses never validate consumes **three**
attempts (not two), and the call then **returns the original (augmented)
assignments** with `cache_key = None` instead of raising. -/
theorem refine_assignments_retry_counterexample :
    refine_assignments
        ⟨fun _ _ => some "no json here", none, "e", "c", "r", "m",
         PyJson.null, MAX_RETRIES, id, fun _ => "diag", fun _ => none⟩
        [⟨101, 1, none, none⟩] (some [⟨"Smart", some "d"⟩]) =
      ⟨.ok ([⟨101, 1, some "Smart", none⟩], none), 3, 0, none⟩ ∧
    MAX_RETRIES = 3 ∧ ¬ (MAX_RETRIES ≤ 2) := by
  refine ⟨rfl, rfl, by decide⟩

/-- Amended claim C7: for every refinement batch whose responses all fail
validation, the engine retries with a diagnostic-augmented prompt up to
`maxRetries` attempts in total (`MAX_RETRIES = 3` by default, not 2),
and when every attempt fails validation it does **not** raise: it
returns the original (augmented) assignments with `cache_key = None`,
after exactly `maxRetries` provider calls.  (Only transport errors or
validator/apply crashes on the final attempt raise.) -/
theorem refine_assignments_all_attempts_then_original (env : ClientEnv)
    (segments : List Segment) (taxs : List Taxonomy) (prep : RefinePrep)
    (hprep : refinePrep env segments taxs = some prep)
    (hcache : env.cache = none)
    (hfail : ∀ i p, ∃ r, env.provider i p = some r ∧
      ∃ out, parse_and_validate_refinement_response r
          (prep.idToProduct.map Prod.fst) (prep.idToSub.map Prod.fst) =
        some out ∧ ∀ m, out ≠ RefinementResult.ok m) :
    refine_assignments env segments (some taxs) =
      ⟨.ok (prep.augmented, none), env.maxRetries, 0, none⟩ := by
  unfold refine_assignments
  simp only [hprep, hcache]
  rw [refineLoop_all_invalid env prep hfail env.maxRetries 0 prep.fullPrompt]
  simp

/-- Witness for the amended claim C7 at a concrete environment whose
provider always answers unparseable text. -/
theorem refine_assignments_all_attempts_then_original_witness :
    refine_assignments
        ⟨fun _ _ => some "x", none, "e", "c", "r", "m", PyJson.null,
         MAX_RETRIES, id, fun _ => "diag", fun _ => none⟩ [] (some []) =
      ⟨.ok ([], none), MAX_RETRIES, 0, none⟩ :=
  refine_assignments_all_attempts_then_original
    ⟨fun _ _ => some "x", none, "e", "c", "r", "m", PyJson.null,
     MAX_RETRIES, id, fun _ => "diag", fun _ => none⟩ [] []
    ⟨[], "**SUBCATEGORIES:**\n",
     "\n**PRODUCTS WITH CURRENT ASSIGNMENTS:**\n",
     "r\n\n**SUBCATEGORIES:**\n\n**PRODUCTS WITH CURRENT ASSIGNMENTS:**\n",
     PyJson.obj [("model", PyJson.str "m"), ("temperature", PyJson.null),
                 ("taxonomy_checksum", PyJson.arr [])], [], []⟩
    rfl rfl
    (fun i p => ⟨"x", rfl, RefinementResult.parseError, rfl,
      fun m h => RefinementResult.noConfusion h⟩)

/-- Claim C4 fails on the code: `segment_products` performs its provider
call without ever consulting the store, even when the cache holds an
entry under the key of the very prompt it renders (here stored under
`generate_key(prompt)`): one provider call, zero cache lookups. -/
theorem segment_products_ignores_cache_counterexample :
    (segment_products
        ⟨fun _ _ => some "\x7b\"Smart\": \x7b\"definition\": \"d\", \"ids\": [0]\x7d\x7d",
         some [(generate_key "e\n\n[0] Product 101" none, "cached response")],
         "e", "c", "r", "m", PyJson.null, MAX_RETRIES, id, fun _ => "diag",
         fun _ => none⟩
        [101] none).providerCalls = 1 ∧
    (segment_products
        ⟨fun _ _ => some "\x7b\"Smart\": \x7b\"definition\": \"d\", \"ids\": [0]\x7d\x7d",
         some [(generate_key "e\n\n[0] Product 101" none, "cached response")],
         "e", "c", "r", "m", PyJson.null, MAX_RETRIES, id, fun _ => "diag",
         fun _ => none⟩
        [101] none).cacheLookups = 0 ∧
    (segment_products
        ⟨fun _ _ => some "\x7b\"Smart\": \x7b\"definition\": \"d\", \"ids\": [0]\x7d\x7d",
         some [(generate_key "e\n\n[0] Product 101" none, "cached response")],
         "e", "c", "r", "m", PyJson.null, MAX_RETRIES, id, fun _ => "diag",
         fun _ => none⟩
        [101] none).result =
      .ok ([⟨"Smart", PyJson.str "d", 1⟩], [⟨0, 1, none, none⟩]) := by
  refine ⟨rfl, rfl, rfl⟩

/-- Amended claim C4: only refinement consults the interaction store.
For every environment, extraction (`segment_products`, nonempty input)
and consolidation (`consolidate_taxonomy`, at least two taxonomies)
perform exactly one provider call and zero cache lookups — the store is
never consulted; `refine_assignments`, when a cache is configured,
consults it before any provider call, and when the stored response for
the computed key validates and applies, it is returned with **zero**
provider calls and one lookup. -/
theorem llm_cache_consultation_spec :
    (∀ (env : ClientEnv) (products : List Int) (category : Option String),
       products ≠ [] →
       (segment_products env products category).cacheLookups = 0 ∧
       (segment_products env products category).providerCalls = 1) ∧
    (∀ (env : ClientEnv) (taxonomies : List TaxonomyDict),
       2 ≤ taxonomies.length →
       (consolidate_taxonomy env taxonomies).cacheLookups = 0 ∧
       (consolidate_taxonomy env taxonomies).providerCalls = 1) ∧
    (∀ (env : ClientEnv) (segments : List Segment) (taxs : List Taxonomy)
       (prep : RefinePrep) (c : List (String × String)) (t : String)
       (mapping : List (String × String)) (updated : List Segment),
       refinePrep env segments taxs = some prep →
       env.cache = some c →
       c.lookup (generate_key prep.fullPrompt (some prep.cacheCtx)) = some t →
       parse_and_validate_refinement_response t (prep.idToProduct.map Prod.fst)
         (prep.idToSub.map Prod.fst) = some (RefinementResult.ok mapping) →
       applyReassignments env.setOrder prep.augmented mapping prep.idToProduct
         prep.idToSub = some updated →
       refine_assignments env segments (some taxs) =
         ⟨.ok (updated, some (generate_key prep.fullPrompt (some prep.cacheCtx))),
          0, 1, some c⟩) := by
  refine ⟨?_, ?_, ?_⟩
  · intro env products category hne
    unfold segment_products
    rw [if_neg (by simp [hne])]
    exact ⟨rfl, rfl⟩
  · intro env taxonomies hlen
    match taxonomies, hlen with
    | t1 :: t2 :: rest, _ =>
      exact ⟨rfl, rfl⟩
  · intro env segments taxs prep c t mapping updated hprep hc hlook hval happ
    unfold refine_assignments
    simp only [hprep, hc, hlook, hval, happ]

/-- Witness for the amended claim C4 at concrete inputs: extraction and
consolidation traces, and a refinement cache hit answered with zero
provider calls. -/
theorem llm_cache_consultation_spec_witness :
    ((segment_products
        ⟨fun _ _ => some "x", none, "e", "c", "r", "m", PyJson.null,
         MAX_RETRIES, id, fun _ => "diag", fun _ => none⟩
        [101] none).cacheLookups = 0 ∧
     (segment_products
        ⟨fun _ _ => some "x", none, "e", "c", "r", "m", PyJson.null,
         MAX_RETRIES, id, fun _ => "diag", fun _ => none⟩
        [101] none).providerCalls = 1) ∧
    ((consolidate_taxonomy
        ⟨fun _ _ => some "x", none, "e", "c", "r", "m", PyJson.null,
         MAX_RETRIES, id, fun _ => "diag", fun _ => none⟩
        [⟨"A", PyJson.null, 1⟩, ⟨"B", PyJson.null, 1⟩]).cacheLookups = 0 ∧
     (consolidate_taxonomy
        ⟨fun _ _ => some "x", none, "e", "c", "r", "m", PyJson.null,
         MAX_RETRIES, id, fun _ => "diag", fun _ => none⟩
        [⟨"A", PyJson.null, 1⟩, ⟨"B", PyJson.null, 1⟩]).providerCalls = 1) ∧
    refine_assignments
        ⟨fun _ _ => some "x",
         some [(generate_key
            "r\n\n**SUBCATEGORIES:**\n\n**PRODUCTS WITH CURRENT ASSIGNMENTS:**\n"
            (some (PyJson.obj [("model", PyJson.str "m"),
              ("temperature", PyJson.null),
              ("taxonomy_checksum", PyJson.arr [])])), "\x7b\x7d")],
         "e", "c", "r", "m", PyJson.null, MAX_RETRIES, id, fun _ => "diag",
         fun _ => none⟩ [] (some []) =
      ⟨.ok ([], some (generate_key
            "r\n\n**SUBCATEGORIES:**\n\n**PRODUCTS WITH CURRENT ASSIGNMENTS:**\n"
            (some (PyJson.obj [("model", PyJson.str "m"),
              ("temperature", PyJson.null),
              ("taxonomy_checksum", PyJson.arr [])])))),
       0, 1,
       some [(generate_key
            "r\n\n**SUBCATEGORIES:**\n\n**PRODUCTS WITH CURRENT ASSIGNMENTS:**\n"
            (some (PyJson.obj [("model", PyJson.str "m"),
              ("temperature", PyJson.null),
              ("taxonomy_checksum", PyJson.arr [])])), "\x7b\x7d")]⟩ :=
  ⟨llm_cache_consultation_spec.1
      ⟨fun _ _ => some "x", none, "e", "c", "r", "m", PyJson.null,
       MAX_RETRIES, id, fun _ => "diag", fun _ => none⟩
      [101] none (by decide),
   llm_cache_consultation_spec.2.1
      ⟨fun _ _ => some "x", none, "e", "c", "r", "m", PyJson.null,
       MAX_RETRIES, id, fun _ => "diag", fun _ => none⟩
      [⟨"A", PyJson.null, 1⟩, ⟨"B", PyJson.null, 1⟩] (by decide),
   llm_cache_consultation_spec.2.2
      _ [] []
      ⟨[], "**SUBCATEGORIES:**\n",
       "\n**PRODUCTS WITH CURRENT ASSIGNMENTS:**\n",
       "r\n\n**SUBCATEGORIES:**\n\n**PRODUCTS WITH CURRENT ASSIGNMENTS:**\n",
       PyJson.obj [("model", PyJson.str "m"), ("temperature", PyJson.null),
                   ("taxonomy_checksum", PyJson.arr [])], [], []⟩
      _ "\x7b\x7d" [] [] rfl rfl (by simp [List.lookup]) rfl rfl⟩

/-! ## Orchestration service (`services/db_product_segmentation.py`)

The repositories are Supabase-backed; they are modelled as the natural
in-memory database their in-file fakes implement: runs and run-products
are key/value tables, segment/taxonomy/interaction rows are appended,
and taxonomy ids are assigned sequentially (auto-increment).  The
storage service's blob writes are modelled as a counter.  The embedding
models the fully-wired configuration (taxonomy and interaction
repositories present). -/

/-- Truthiness of a JSON value under Python `bool(...)`. -/
def pyTruthy : PyJson → Bool
  | .null => false
  | .bool b => b
  | .int i => ¬ i = 0
  | .str s => ¬ s = ""
  | .arr l => ¬ l.isEmpty
  | .obj l => ¬ l.isEmpty

/-- Run status as the service writes it (`SegmentationStatus`). -/
inductive SegStatus where
  | running
  | completed
  | failed
  deriving DecidableEq

/-- A `segmentation_runs` row (the fields the in-scope flows read). -/
structure RunRecord where
  id : String
  category : String
  total_products : Nat
  processed_products : Nat
  status : SegStatus
  batch_size : Int
  deriving DecidableEq

/-- A `product_segments` / refined-segments row. -/
structure SegmentRow where
  run_id : String
  product_id : Int
  taxonomy_id : Int
  deriving DecidableEq

/-- A `product_taxonomies` row with its assigned id. -/
structure TaxonomyRow where
  id : Int
  run_id : String
  category_name : String
  definition : PyJson
  product_count : Nat

/-- An `llm_interactions` index row. -/
structure InteractionRow where
  run_id : String
  interaction_type : String
  batch_id : Nat
  attempt : Nat
  file_path : String
  cache_key : Option String
  deriving DecidableEq

/-- The persistent state behind the repositories and the blob store. -/
structure ServiceState where
  runs : List (String × RunRecord)
  runProducts : List (String × List Int)
  segments : List SegmentRow
  refinedSegments : List SegmentRow
  taxonomies : List TaxonomyRow
  interactions : List InteractionRow
  storedBlobs : Nat

/-- The injected LLM client (`SegmentationLLMClient` protocol): each
method returns the parsed result or an exception. -/
structure ServiceClient where
  segmentProductsFn : List Int → Option String →
    Except Unit (List TaxonomyDict × List Segment)
  consolidateTaxonomyFn : List TaxonomyDict → Except Unit (List TaxonomyDict)
  refineAssignmentsFn : List Segment → Option (List Taxonomy) →
    Except Unit (List Segment × Option String)

/-- The service environment: the injected client and the PRNG stream the
batcher consumes (see `makeBatches`). -/
structure ServiceEnv where
  client : ServiceClient
  draw : Nat → Nat → Nat

/-- Update the run record under `run_id`, when present. -/
def adjustRun (run_id : String) (f : RunRecord → RunRecord)
    (st : ServiceState) : ServiceState :=
  { st with runs := st.runs.map fun kv =>
      if kv.1 = run_id then (kv.1, f kv.2) else kv }

/-- Embedding of `SegmentationRunRepository.update_progress`. -/
def updateProgress (run_id : String) (processed total : Nat)
    (st : ServiceState) : ServiceState :=
  adjustRun run_id
    (fun r => { r with processed_products := processed, total_products := total }) st

/-- Embedding of `SegmentationRunRepository.update_status`. -/
def updateStatus (run_id : String) (s : SegStatus)
    (st : ServiceState) : ServiceState :=
  adjustRun run_id (fun r => { r with status := s }) st

/-- Embedding of `LLMStorageService.store_interaction` (the blob write). -/
def storeBlob (st : ServiceState) : ServiceState :=
  { st with storedBlobs := st.storedBlobs + 1 }

/-- Embedding of `batch_create_taxonomies`: append rows with sequential
ids and return the created rows. -/
def insertTaxonomies (st : ServiceState) (run_id : String)
    (taxs : List TaxonomyDict) : ServiceState × List TaxonomyRow :=
  let start : Int := (st.taxonomies.length : Int) + 1
  let rows := taxs.enum.map (fun p =>
    TaxonomyRow.mk (start + (p.1 : Int)) run_id p.2.category_name
      p.2.definition p.2.product_count)
  ({ st with taxonomies := st.taxonomies ++ rows }, rows)

/-- The `name → actual PK id` mapping built from the inserted rows (a
later duplicate name overwrites an earlier one). -/
def taxonomyNameToId (rows : List TaxonomyRow) : List (String × Int) :=
  rows.foldl (fun acc r => pyDictInsert r.category_name r.id acc) []

/-- Embedding of the per-segment remap loop (step ❷ of `execute_run`):
derive a missing/empty `category_name` from the 1-based batch taxonomy
index, then replace `taxonomy_id` with the actual DB id when the name is
known. -/
def remapSegments (segs : List Segment) (batchTaxList : List TaxonomyDict)
    (nameToId : List (String × Int)) : List Segment :=
  segs.map (fun seg =>
    let cat0 := match seg.category_name with
      | some c => if c = "" then none else some c
      | none => none
    let catName := match cat0 with
      | some c => some c
      | none =>
        if 0 ≤ seg.taxonomy_id - 1 ∧ seg.taxonomy_id - 1 < (batchTaxList.length : Int)
        then (batchTaxList.get? (seg.taxonomy_id - 1).toNat).map
          TaxonomyDict.category_name
        else none
    match catName with
    | some c =>
      if c = "" then seg
      else { seg with
             category_name := some c
             taxonomy_id := (nameToId.lookup c).getD seg.taxonomy_id }
    | none => seg)

/-- Convert a taxonomy dict to the shape `refine_assignments` consumes:
the definition string is `t.get("definition","") or ""` rendered by the
prompt f-string (falsy JSON values collapse to the empty string). -/
def taxonomyForRefine (t : TaxonomyDict) : Taxonomy :=
  ⟨t.category_name, some (if pyTruthy t.definition then pyStr t.definition else "")⟩

/-- The per-batch body of `execute_run`: one client call, interaction
blob + index row, taxonomy persistence with real ids, segment remap and
insert, and the progress update.  Returns the accumulated batch
taxonomies and (remapped) segments, or the propagated exception together
with the state at the point of failure. -/
def processBatches (env : ServiceEnv) (run_id category : String) (total : Nat) :
    ServiceState → List (List Int) → Nat → Nat →
    List TaxonomyDict → List Segment →
    ServiceState × Except Unit (List TaxonomyDict × List Segment)
  | st, [], _, _, accTax, accSegs => (st, .ok (accTax, accSegs))
  | st, batch :: rest, batchIdx, processedSoFar, accTax, accSegs =>
    match env.client.segmentProductsFn batch (some category) with
    | .error e => (st, .error e)
    | .ok (batchTaxList, segs) =>
      let st1 := storeBlob st
      let row : InteractionRow :=
        ⟨run_id, "segmentation", batchIdx + 1, 1,
         run_id ++ "/interactions/segmentation_batch_" ++
           toString (batchIdx + 1) ++ "_attempt_1.json", none⟩
      let st2 := { st1 with interactions := st1.interactions ++ [row] }
      let (st3, rows) := insertTaxonomies st2 run_id batchTaxList
      let nameToId := taxonomyNameToId rows
      let remapped := remapSegments segs batchTaxList nameToId
      let segRows := remapped.map
        (fun s => SegmentRow.mk run_id s.product_id s.taxonomy_id)
      let st4 := { st3 with segments := st3.segments ++ segRows }
      let processed2 := processedSoFar + batch.length
      let st5 := updateProgress run_id processed2 total st4
      processBatches env run_id category total st5 rest (batchIdx + 1)
        processed2 (accTax ++ batchTaxList) (accSegs ++ remapped)

/-- Embedding of `_consolidate_taxonomies`: zero or one batch taxonomies
pass through; otherwise one client call plus an interaction blob. -/
def consolidateStep (env : ServiceEnv) (st : ServiceState)
    (batchTaxonomies : List TaxonomyDict) :
    ServiceState × Except Unit (List TaxonomyDict) :=
  match batchTaxonomies with
  | [] => (st, .ok [])
  | [t] => (st, .ok [t])
  | _ =>
    match env.client.consolidateTaxonomyFn batchTaxonomies with
    | .error e => (st, .error e)
    | .ok consolidated => (storeBlob st, .ok consolidated)

/-- The per-batch body of `_refine_assignments`. -/
def refineBatches (env : ServiceEnv) (run_id : String)
    (taxonomies : List Taxonomy) :
    ServiceState → List (List Segment) → Nat → List Segment →
    ServiceState × Except Unit (List Segment)
  | st, [], _, acc => (st, .ok acc)
  | st, batch :: rest, batchIdx, acc =>
    match env.client.refineAssignmentsFn batch (some taxonomies) with
    | .error e => (st, .error e)
    | .ok (segs, cacheKey) =>
      let st1 := storeBlob st
      let row : InteractionRow :=
        ⟨run_id, "refine_assignments", batchIdx + 1, 1,
         run_id ++ "/interactions/refine_assignments_batch_" ++
           toString (batchIdx + 1) ++ "_attempt_1.json", cacheKey⟩
      let st2 := { st1 with interactions := st1.interactions ++ [row] }
      refineBatches env run_id taxonomies st2 rest (batchIdx + 1) (acc ++ segs)

/-- Embedding of `_refine_assignments`: empty segments or taxonomies are
a no-op; otherwise the segments are re-batched (shuffled) and refined
batch by batch. -/
def refineStep (env : ServiceEnv) (st : ServiceState) (run_id : String)
    (segments : List Segment) (consolidated : List TaxonomyDict) :
    ServiceState × Except Unit (List Segment) :=
  if segments.isEmpty ∨ consolidated.isEmpty then (st, .ok [])
  else
    match makeBatches env.draw segments PRODUCTS_PER_REFINEMENT 42 with
    | none => (st, .error ())
    | some batches =>
      refineBatches env run_id (consolidated.map taxonomyForRefine) st batches 0 []

/-- The `try` body of `execute_run`, threading the state so the handler
can still write the terminal status at the point of failure. -/
def executeRunSteps (env : ServiceEnv) (st : ServiceState) (run_id : String) :
    ServiceState × Except Unit Unit :=
  match st.runs.lookup run_id with
  | none => (st, .error ())
  | some run =>
    let products := (st.runProducts.lookup run_id).getD []
    if products.isEmpty then (st, .error ())
    else
      match makeBatches env.draw products PRODUCTS_PER_TAXONOMY_PROMPT 42 with
      | none => (st, .error ())
      | some batches =>
        match processBatches env run_id run.category products.length st batches
            0 0 [] [] with
        | (st2, .error e) => (st2, .error e)
        | (st2, .ok (batchTaxonomies, allSegments)) =>
          match consolidateStep env st2 batchTaxonomies with
          | (st3, .error e) => (st3, .error e)
          | (st3, .ok consolidated) =>
            let st4 := (insertTaxonomies st3 run_id consolidated).1
            match refineStep env st4 run_id allSegments consolidated with
            | (st5, .error e) => (st5, .error e)
            | (st5, .ok refined) =>
              let refRows := refined.map
                (fun s => SegmentRow.mk run_id s.product_id s.taxonomy_id)
              let st6 := { st5 with refinedSegments :=
                             st5.refinedSegments ++ refRows }
              (st6, .ok ())

/-- Embedding of `DatabaseProductSegmentationService.execute_run`: run
the pipeline, then mark the run *completed*; on any propagated
exception, mark it *failed* and re-raise. -/
def execute_run (env : ServiceEnv) (st : ServiceState) (run_id : String) :
    ServiceState × Except Unit Unit :=
  match executeRunSteps env st run_id with
  | (st2, .ok ()) => (updateStatus run_id .completed st2, .ok ())
  | (st2, .error e) => (updateStatus run_id .failed st2, .error e)

/-- The ASCII whitespace Python `str.strip()` removes (the engine's
categories are ASCII labels; further unicode whitespace is out of
scope). -/
def pyIsSpace (c : Char) : Bool :=
  c = ' ' ∨ c = '\t' ∨ c = '\n' ∨ c = '\r' ∨ c.toNat = 11 ∨ c.toNat = 12

/-- Embedding of Python `s.strip()`. -/
def pyStrip (s : String) : String :=
  String.mk (((s.toList.dropWhile pyIsSpace).reverse.dropWhile pyIsSpace).reverse)

/-- The `StartSegmentationRequest` body. -/
structure StartSegmentationRequest where
  product_ids : List Int
  category : String
  batch_size : Option Int
  deriving DecidableEq

/-- The `batch_size` rejection test: a supplied non-positive batch size.
(The pydantic errors model the `ValidationError` the API surfaces as
*InvalidInput*, 422.) -/
def nonPositiveBatch (batchSize : Option Int) : Bool :=
  match batchSize with
  | some b => b ≤ 0
  | none => false

/-- Embedding of the pydantic field validators of
`StartSegmentationRequest` (see `nonPositiveBatch` for the
`batch_size` rule). -/
def validateStartSegmentationRequest (productIds : List Int) (category : String)
    (batchSize : Option Int) : Except String StartSegmentationRequest :=
  if productIds.isEmpty then .error "At least one product ID required"
  else if category = "" ∨ pyStrip category = "" then
    .error "Category must be non-empty"
  else if nonPositiveBatch batchSize then .error "Batch size must be positive"
  else .ok ⟨productIds, category, batchSize⟩

/-- Embedding of `DatabaseProductSegmentationService.create_run`: build
`RUN_<ts>_<hex4>` (the UTC `%Y%m%dT%H%M%SZ` timestamp and
`secrets.token_hex(2)` are injected), re-validate through
`SegmentationRunCreate` (id length, non-blank category), persist the run
record and the run products, and return the id. -/
def create_run (st : ServiceState) (request : StartSegmentationRequest)
    (ts hex4 : String) : Except String (String × ServiceState) :=
  let run_id := "RUN_" ++ ts ++ "_" ++ hex4
  if run_id = "" then .error "Run ID must be non-empty"
  else if 50 < run_id.length then .error "Run ID must be at most 50 characters"
  else if request.category = "" ∨ pyStrip request.category = "" then
    .error "Category must be non-empty"
  else
    let record : RunRecord :=
      ⟨run_id, request.category, request.product_ids.length, 0, .running,
       request.batch_size.getD (PRODUCTS_PER_TAXONOMY_PROMPT : Int)⟩
    .ok (run_id,
      { st with
        runs := pyDictInsert run_id record st.runs
        runProducts := pyDictInsert run_id request.product_ids st.runProducts })

/-- Looking a key up right after inserting it yields the new value. -/
theorem pyDictInsert_lookup_self {β : Type} (k : String) (v : β) :
    ∀ l : List (String × β), (pyDictInsert k v l).lookup k = some v := by
  intro l
  induction l with
  | nil => simp [pyDictInsert, List.lookup]
  | cons kv rest ih =>
    obtain ⟨k0, v0⟩ := kv
    unfold pyDictInsert
    by_cases h : k0 = k
    · subst h
      simp [List.lookup]
    · simp only [if_neg h, List.lookup]
      have : (k == k0) = false := by
        simp [beq_eq_false_iff_ne]
        exact fun hc => h hc.symm
      rw [this]
      exact ih

/-- Claim C10 fails on the code in its success direction: a request with
a non-empty product list and a non-blank category is still rejected when
its optional `batch_size` is not positive. -/
theorem create_run_accepts_counterexample :
    (∃ err, validateStartSegmentationRequest [1] "Lighting" (some 0) =
      .error err) ∧
    ¬ ([1] : List Int).isEmpty ∧ ¬ (pyStrip "Lighting" = "") := by
  refine ⟨⟨"Batch size must be positive", rfl⟩, by decide, by decide⟩

/-- Amended claim C10: run-creation request validation fails (surfacing
as *InvalidInput*) exactly when the product-id list is empty, the
category is blank (empty or whitespace-only), or a non-positive
`batch_size` is supplied; for every validated request (with injected
timestamp and hex suffix of standard lengths) `create_run` succeeds,
returns the id `RUN_<ts>_<hex4>`, and persists the run record (status
*running*, totals set) together with the run products. -/
theorem create_run_validation_spec :
    (∀ (ids : List Int) (cat : String) (bs : Option Int),
      (∃ err, validateStartSegmentationRequest ids cat bs = .error err) ↔
        (ids = [] ∨ pyStrip cat = "" ∨ ∃ b, bs = some b ∧ b ≤ 0)) ∧
    (∀ (st : ServiceState) (ids : List Int) (cat : String) (bs : Option Int)
       (req : StartSegmentationRequest) (ts hex4 : String),
      validateStartSegmentationRequest ids cat bs = .ok req →
      ts.length = 16 → hex4.length = 4 →
      ∃ st2, create_run st req ts hex4 = .ok ("RUN_" ++ ts ++ "_" ++ hex4, st2) ∧
        st2.runs.lookup ("RUN_" ++ ts ++ "_" ++ hex4) =
          some ⟨"RUN_" ++ ts ++ "_" ++ hex4, cat, ids.length, 0, .running,
                bs.getD (PRODUCTS_PER_TAXONOMY_PROMPT : Int)⟩ ∧
        st2.runProducts.lookup ("RUN_" ++ ts ++ "_" ++ hex4) = some ids) := by
  constructor
  · intro ids cat bs
    unfold validateStartSegmentationRequest
    by_cases h1 : ids.isEmpty
    · simp [h1]
      exact Or.inl (List.isEmpty_iff.mp h1)
    · rw [if_neg h1]
      have hids : ¬ ids = [] := fun hc => h1 (by simp [hc])
      by_cases h2 : cat = "" ∨ pyStrip cat = ""
      · have hblank : pyStrip cat = "" := by
          rcases h2 with h | h
          · subst h; rfl
          · exact h
        simp [h2, hids, hblank]
      · rw [if_neg h2]
        have hnb : ¬ pyStrip cat = "" := fun hc => h2 (Or.inr hc)
        cases bs with
        | none => simp [hids, hnb, nonPositiveBatch]
        | some b =>
          by_cases h3 : b ≤ 0
          · simp [nonPositiveBatch, h3, hids, hnb]
          · simp [nonPositiveBatch, h3, hids, hnb]
  · intro st ids cat bs req ts hex4 hval hts hhex
    have hshape : req = ⟨ids, cat, bs⟩ ∧ ¬ (cat = "" ∨ pyStrip cat = "") := by
      unfold validateStartSegmentationRequest at hval
      by_cases h1 : ids.isEmpty
      · rw [if_pos h1] at hval; cases hval
      · rw [if_neg h1] at hval
        by_cases h2 : cat = "" ∨ pyStrip cat = ""
        · rw [if_pos h2] at hval; cases hval
        · rw [if_neg h2] at hval
          by_cases h3 : nonPositiveBatch bs
          · rw [if_pos h3] at hval; cases hval
          · rw [if_neg h3] at hval
            injection hval with hval
            exact ⟨hval.symm, h2⟩
    obtain ⟨hreq, hblank⟩ := hshape
    subst hreq
    have hlen : ("RUN_" ++ ts ++ "_" ++ hex4).length = 25 := by
      simp [String.length_append, hts, hhex]
      decide
    have hcr : create_run st ⟨ids, cat, bs⟩ ts hex4 =
        .ok ("RUN_" ++ ts ++ "_" ++ hex4,
          { st with
            runs := pyDictInsert ("RUN_" ++ ts ++ "_" ++ hex4)
              ⟨"RUN_" ++ ts ++ "_" ++ hex4, cat, ids.length, 0, .running,
               bs.getD (PRODUCTS_PER_TAXONOMY_PROMPT : Int)⟩ st.runs
            runProducts := pyDictInsert ("RUN_" ++ ts ++ "_" ++ hex4) ids
              st.runProducts }) := by
      unfold create_run
      rw [if_neg (by intro hc; rw [hc] at hlen; simp at hlen),
          if_neg (by rw [hlen]; omega), if_neg hblank]
    exact ⟨_, hcr, pyDictInsert_lookup_self _ _ _, pyDictInsert_lookup_self _ _ _⟩

/-- Witness for the amended claim C10 at a concrete request. -/
theorem create_run_validation_spec_witness :
    ∃ st2, create_run ⟨[], [], [], [], [], [], 0⟩
        ⟨[101, 102], "Lighting", none⟩ "20250101T000000Z" "abcd" =
      .ok ("RUN_" ++ "20250101T000000Z" ++ "_" ++ "abcd", st2) ∧
      st2.runs.lookup ("RUN_" ++ "20250101T000000Z" ++ "_" ++ "abcd") =
        some ⟨"RUN_" ++ "20250101T000000Z" ++ "_" ++ "abcd", "Lighting", 2, 0,
              .running, (PRODUCTS_PER_TAXONOMY_PROMPT : Int)⟩ ∧
      st2.runProducts.lookup ("RUN_" ++ "20250101T000000Z" ++ "_" ++ "abcd") =
        some [101, 102] :=
  create_run_validation_spec.2 ⟨[], [], [], [], [], [], 0⟩ [101, 102] "Lighting"
    none ⟨[101, 102], "Lighting", none⟩ "20250101T000000Z" "abcd" rfl rfl rfl

/-- Unfolding an association-list lookup one entry at a time. -/
theorem lookup_cons_eq {β : Type} (a k : String) (b : β) (es : List (String × β)) :
    ((k, b) :: es).lookup a = if a = k then some b else es.lookup a := by
  rw [List.lookup]
  split <;> simp_all

/-- Looking up in a per-key-adjusted association list. -/
theorem lookup_map_adjust {β : Type} (rid rid2 : String) (f : β → β) :
    ∀ l : List (String × β),
      (l.map (fun kv => if kv.1 = rid then (kv.1, f kv.2) else kv)).lookup rid2 =
        if rid2 = rid then (l.lookup rid2).map f else l.lookup rid2 := by
  intro l
  induction l with
  | nil => by_cases h : rid2 = rid <;> simp [h, List.lookup]
  | cons kv rest ih =>
    obtain ⟨k, v⟩ := kv
    by_cases hk : k = rid
    · by_cases h2 : rid2 = k
      · have h3 : rid2 = rid := h2.trans hk
        simp [hk, h2, h3, lookup_cons_eq, ih]
      · have h3 : ¬ rid2 = rid := fun hc => h2 (hc.trans hk.symm)
        simp [hk, h2, h3, lookup_cons_eq, ih]
    · by_cases h2 : rid2 = k
      · have h3 : ¬ rid2 = rid := fun hc => hk (h2.symm.trans hc)
        simp [hk, h2, h3, lookup_cons_eq, ih]
      · simp [hk, h2, lookup_cons_eq, ih]

/-- Run-record lookup through `adjustRun`. -/
theorem adjustRun_lookup (rid rid2 : String) (f : RunRecord → RunRecord)
    (st : ServiceState) :
    (adjustRun rid f st).runs.lookup rid2 =
      if rid2 = rid then (st.runs.lookup rid2).map f else st.runs.lookup rid2 :=
  lookup_map_adjust rid rid2 f st.runs

/-- The batch loop never creates or deletes run records: a run-record
lookup stays present (it is only adjusted by progress updates). -/
theorem processBatches_runs_isSome (env : ServiceEnv) (rid cat : String)
    (total : Nat) (rid2 : String) :
    ∀ (batches : List (List Int)) (st : ServiceState) (bi ps : Nat)
      (accT : List TaxonomyDict) (accS : List Segment),
      ((processBatches env rid cat total st batches bi ps accT accS).1.runs.lookup
        rid2).isSome = (st.runs.lookup rid2).isSome := by
  intro batches
  induction batches with
  | nil => intro st bi ps accT accS; rfl
  | cons batch rest ih =>
    intro st bi ps accT accS
    rw [processBatches]
    cases env.client.segmentProductsFn batch (some cat) with
    | error e => rfl
    | ok res =>
      obtain ⟨batchTaxList, segs⟩ := res
      simp only []
      rw [ih]
      simp only [updateProgress, adjustRun_lookup]
      by_cases h : rid2 = rid
      · simp [h, insertTaxonomies, storeBlob]
      · simp [h, insertTaxonomies, storeBlob]

/-- The refinement batch loop does not touch the run records. -/
theorem refineBatches_runs (env : ServiceEnv) (rid : String)
    (taxonomies : List Taxonomy) :
    ∀ (batches : List (List Segment)) (st : ServiceState) (bi : Nat)
      (acc : List Segment),
      (refineBatches env rid taxonomies st batches bi acc).1.runs = st.runs := by
  intro batches
  induction batches with
  | nil => intro st bi acc; rfl
  | cons batch rest ih =>
    intro st bi acc
    rw [refineBatches]
    cases env.client.refineAssignmentsFn batch (some taxonomies) with
    | error e => rfl
    | ok res =>
      obtain ⟨segs, cacheKey⟩ := res
      simp only []
      rw [ih]
      rfl

/-- The pipeline body preserves the presence of every run record. -/
theorem executeRunSteps_runs_isSome (env : ServiceEnv) (st : ServiceState)
    (rid rid2 : String) :
    ((executeRunSteps env st rid).1.runs.lookup rid2).isSome =
      (st.runs.lookup rid2).isSome := by
  unfold executeRunSteps
  cases hrun : st.runs.lookup rid with
  | none => rfl
  | some run =>
    simp only []
    by_cases hps : ((st.runProducts.lookup rid).getD []).isEmpty
    · rw [if_pos hps]
    · rw [if_neg hps]
      cases hmb : makeBatches env.draw ((st.runProducts.lookup rid).getD [])
          PRODUCTS_PER_TAXONOMY_PROMPT 42 with
      | none => rfl
      | some batches =>
        simp only []
        rcases hpb : processBatches env rid run.category
            ((st.runProducts.lookup rid).getD []).length st batches 0 0 [] []
          with ⟨st2, res⟩
        have hpb1 : (st2.runs.lookup rid2).isSome =
            (st.runs.lookup rid2).isSome := by
          have := processBatches_runs_isSome env rid run.category
            ((st.runProducts.lookup rid).getD []).length rid2 batches st 0 0 [] []
          rw [hpb] at this
          exact this
        cases res with
        | error e => exact hpb1
        | ok acc =>
          obtain ⟨batchTaxonomies, allSegments⟩ := acc
          simp only []
          rcases hcs : consolidateStep env st2 batchTaxonomies with ⟨st3, res2⟩
          have hcs1 : st3.runs = st2.runs := by
            unfold consolidateStep at hcs
            cases batchTaxonomies with
            | nil => cases hcs; rfl
            | cons t ts =>
              cases ts with
              | nil => cases hcs; rfl
              | cons t2 ts2 =>
                cases hcc : env.client.consolidateTaxonomyFn (t :: t2 :: ts2) with
                | error e => rw [hcc] at hcs; cases hcs; rfl
                | ok cons2 => rw [hcc] at hcs; cases hcs; rfl
          cases res2 with
          | error e => rw [hcs1]; exact hpb1
          | ok consolidated =>
            simp only []
            rcases hrs : refineStep env (insertTaxonomies st3 rid consolidated).1
                rid allSegments consolidated with ⟨st5, res3⟩
            have hrs1 : st5.runs = st3.runs := by
              unfold refineStep at hrs
              by_cases hempty : allSegments.isEmpty ∨ consolidated.isEmpty
              · rw [if_pos hempty] at hrs
                cases hrs
                rfl
              · rw [if_neg hempty] at hrs
                cases hmb2 : makeBatches env.draw allSegments
                    PRODUCTS_PER_REFINEMENT 42 with
                | none => rw [hmb2] at hrs; cases hrs; rfl
                | some batches2 =>
                  rw [hmb2] at hrs
                  have hrs2 : refineBatches env rid
                      (consolidated.map taxonomyForRefine)
                      (insertTaxonomies st3 rid consolidated).1 batches2 0 [] =
                      (st5, res3) := hrs
                  have := refineBatches_runs env rid
                    (consolidated.map taxonomyForRefine) batches2
                    (insertTaxonomies st3 rid consolidated).1 0 []
                  rw [hrs2] at this
                  exact this
            cases res3 with
            | error e => rw [hrs1, hcs1]; exact hpb1
            | ok refined =>
              simp only []
              rw [hrs1, hcs1]
              exact hpb1

/-- Claim C9: for every execution of a run in which an exception
propagates out of the pipeline body, `execute_run` writes the terminal
*failed* status onto the (existing) run record and re-raises the same
exception to the caller. -/
theorem execute_run_failed_on_error (env : ServiceEnv) (st : ServiceState)
    (rid : String) (r : RunRecord) (e : Unit)
    (hrun : st.runs.lookup rid = some r)
    (herr : (executeRunSteps env st rid).2 = .error e) :
    (execute_run env st rid).2 = .error e ∧
    ∃ r2, (execute_run env st rid).1.runs.lookup rid = some r2 ∧
      r2.status = .failed := by
  rcases hst : executeRunSteps env st rid with ⟨st3, res⟩
  have hres : res = Except.error e := by rw [hst] at herr; exact herr
  subst hres
  have hex : execute_run env st rid =
      (updateStatus rid .failed st3, .error e) := by
    unfold execute_run
    rw [hst]
  rw [hex]
  have hs : (st3.runs.lookup rid).isSome = true := by
    have h2 := executeRunSteps_runs_isSome env st rid rid
    rw [hst, hrun] at h2
    exact h2
  rcases Option.isSome_iff_exists.mp hs with ⟨r3, hr3⟩
  refine ⟨rfl, { r3 with status := SegStatus.failed }, ?_, rfl⟩
  show (adjustRun rid (fun rr => { rr with status := SegStatus.failed })
    st3).runs.lookup rid = _
  rw [adjustRun_lookup, if_pos rfl, hr3]
  rfl

/-- Witness for claim C9: a one-product run with an always-failing
client ends with its stored status *failed* and the error re-raised. -/
theorem execute_run_failed_on_error_witness :
    (execute_run
        ⟨⟨fun _ _ => .error (), fun _ => .error (), fun _ _ => .error ()⟩,
         fun _ _ => 0⟩
        ⟨[("R1", ⟨"R1", "Lighting", 1, 0, .running, 40⟩)], [("R1", [1])],
         [], [], [], [], 0⟩ "R1").2 = .error () ∧
    ∃ r2, (execute_run
        ⟨⟨fun _ _ => .error (), fun _ => .error (), fun _ _ => .error ()⟩,
         fun _ _ => 0⟩
        ⟨[("R1", ⟨"R1", "Lighting", 1, 0, .running, 40⟩)], [("R1", [1])],
         [], [], [], [], 0⟩ "R1").1.runs.lookup "R1" = some r2 ∧
      r2.status = .failed :=
  execute_run_failed_on_error _ _ "R1" ⟨"R1", "Lighting", 1, 0, .running, 40⟩ ()
    rfl rfl

/-- The service's injected client as wired in the application: each
protocol method delegates to the corresponding
`ProductSegmentationLLMClient` method and surfaces its result. -/
def realServiceClient (cenv : ClientEnv) : ServiceClient :=
  ⟨fun products category => (segment_products cenv products category).result,
   fun taxonomies => (consolidate_taxonomy cenv taxonomies).result,
   fun segments taxonomies => (refine_assignments cenv segments taxonomies).result⟩

/-- A minimal live configuration for one full pipeline execution: the
extraction, consolidation and refinement prompt templates are `E`, `C`
and `R`; the provider answers extraction prompts with a single `Smart`
category over the positional ids `[0, 1, 2]` and every other prompt
with the empty (no-changes) object; no file cache is configured. -/
def c8ClientEnv : ClientEnv :=
  ⟨fun _ p =>
     some (match p.toList with
       | 'E' :: _ =>
         "\x7b\"Smart\": \x7b\"definition\": \"WiFi\", \"ids\": [0, 1, 2]\x7d\x7d"
       | _ => "\x7b\x7d"),
   none, "E", "C", "R", "m", PyJson.int 0, MAX_RETRIES,
   fun _ => [], fun _ => "", fun _ => none⟩

/-- The service environment of the C8 scenario. -/
def c8Env : ServiceEnv := ⟨realServiceClient c8ClientEnv, fun _ _ => 0⟩

/-- The C8 scenario's store: one freshly created run over the products
101, 102 and 103. -/
def c8State : ServiceState :=
  ⟨[("R1", ⟨"R1", "Lighting", 3, 0, .running, 40⟩)],
   [("R1", [101, 102, 103])], [], [], [], [], 0⟩

set_option maxRecDepth 100000 in
/-- Claim C8 fails on the code: a run over the products 101, 102 and
103 reaches *completed*, yet neither assignment table holds a row for
any of those products — the stored `product_id`s are the positional
response indices 0, 1, 2, because `segment_products` returns the
response ids verbatim (never mapping them back to the batch's real
product ids) and `execute_run` never validates assignment coverage
before marking the run completed. -/
theorem completed_run_missing_assignments :
    (execute_run c8Env c8State "R1").2 = .ok () ∧
    ((execute_run c8Env c8State "R1").1.runs.lookup "R1").map
      RunRecord.status = some SegStatus.completed ∧
    (execute_run c8Env c8State "R1").1.runProducts.lookup "R1" =
      some [101, 102, 103] ∧
    ((execute_run c8Env c8State "R1").1.segments.map
      SegmentRow.product_id) = [0, 1, 2] ∧
    ((execute_run c8Env c8State "R1").1.segments.filter
      (fun row => row.product_id == 101 || row.product_id == 102 ||
        row.product_id == 103)) = [] ∧
    ((execute_run c8Env c8State "R1").1.refinedSegments.filter
      (fun row => row.product_id == 101 || row.product_id == 102 ||
        row.product_id == 103)) = [] :=
  ⟨rfl, rfl, rfl, rfl, rfl, rfl⟩
